import Mathlib

/-!
# Content-stream renderer (pdf/render/pdf_render.go)

A shallow embedding of the operator handler registered by `renderContentStream`
and of the drawing context it drives.

Conventions of the embedding:

* `float64` operands are rationals: the handler only negates, adds, multiplies
  and divides them.
* A content stream is represented by the result of parsing it, a list of
  operations or a parse error.
* Indirect objects and nil pointers are not represented: every object is a
  direct, non-nil object.
* The drawing context `gg.Context` is an imported library. Its state is
  modelled by `Context`; every method the handler invokes is a `Call`, and the
  render context keeps the list of calls issued so far.
-/

namespace PdfRender

/-! ## Errors -/

/-- Error values the handler can return: its two package-level errors, the
three errors it creates in place, and errors handed back by library calls. -/
inductive Err where
  | errType
  | errRange
  | resourceNotFound
  | fontNotFound
  | fontDescriptorMissing
  | lib (msg : String)
  deriving DecidableEq, Repr

/-! ## Objects and operations -/

/-- Decoded raster image, reduced to the bounds the handler reads. -/
structure GoImage where
  Dx : Int
  Dy : Int
  deriving DecidableEq, Repr

/-- Direct PDF objects (`core.PdfObject`), with the inline-image operand of
`BI` carrying the outcome of decoding it. -/
inductive PdfObject where
  | null
  | bool (b : Bool)
  | integer (i : Int)
  | float (f : ℚ)
  | string (s : String)
  | name (n : String)
  | array (elements : List PdfObject)
  | dictionary (entries : List (String × PdfObject))
  | inlineImage (decoded : Except Err GoImage)

/-- One operation of a content stream: `Operand` is the operator name and
`Params` its operands (the field names are those of the library). -/
structure ContentStreamOperation where
  Operand : String
  Params : List PdfObject

/-- Result of `cstreamParser.Parse()` on the stream text. -/
abbrev ContentStream := Except Err (List ContentStreamOperation)

/-- Library accessor `core.GetNumberAsFloat`: integers and floats convert,
anything else is the library's own error (neither `errType` nor `errRange`). -/
def GetNumberAsFloat : PdfObject → Except Err ℚ
  | .float f => .ok f
  | .integer i => .ok (i : ℚ)
  | _ => .error (.lib "not a number")

/-- Library accessor `core.GetNumbersAsFloat`: converts every element, failing
on the first that is not a number. -/
def GetNumbersAsFloat : List PdfObject → Except Err (List ℚ)
  | [] => .ok []
  | o :: os =>
    match GetNumberAsFloat o with
    | .error e => .error e
    | .ok v =>
      match GetNumbersAsFloat os with
      | .error e => .error e
      | .ok vs => .ok (v :: vs)

/-- Library accessor `core.GetIntVal`. -/
def GetIntVal : PdfObject → Option Int
  | .integer i => some i
  | _ => none

/-- Library accessor `core.GetName`. -/
def GetName : PdfObject → Option String
  | .name n => some n
  | _ => none

/-- Library accessor `core.GetArray`. -/
def GetArray : PdfObject → Option (List PdfObject)
  | .array es => some es
  | _ => none

/-- Library accessor `core.GetStringBytes`. -/
def GetStringBytes : PdfObject → Option String
  | .string s => some s
  | _ => none

/-- Library accessor `core.GetDict`. -/
def GetDict : PdfObject → Option (List (String × PdfObject))
  | .dictionary es => some es
  | _ => none

/-! ## Resources -/

/-- Embedded font program referenced by a font descriptor: the outcome of
`core.DecodeStream` followed by `truetype.Parse`, the parsed font being
identified by a label. -/
structure FontFile where
  parsed : Except Err String

/-- Font resource, described by what the library calls of `Tf` return for it:
the font object, then `NewPdfFontFromPdfObject` and `GetFontDescriptor` (an
error, a missing descriptor, or a descriptor whose `FontFile2` is a stream or
not). -/
structure FontResource where
  fObj : PdfObject
  descriptor : Except Err (Option (Option FontFile))

mutual
/-- Resource scope of a content stream (`pdf.PdfPageResources`). -/
inductive PdfPageResources where
  | mk (ExtGState : List (String × PdfObject))
       (Font : List (String × FontResource))
       (XObject : List (String × XObject))
/-- External object: an image (with the outcome of fetching and decoding it)
or a form (with the outcome of `GetXObjectFormByName`). -/
inductive XObject where
  | image (decoded : Except Err GoImage)
  | form (xform : Except Err XObjectForm)
/-- Form XObject: the outcome of `GetContentStream` (with the parse result of
the text), the optional resources of its own, and the optional `Matrix` and
`BBox` entries. -/
inductive XObjectForm where
  | mk (content : Except Err ContentStream)
       (Resources : Option PdfPageResources)
       (Matrix : Option PdfObject)
       (BBox : Option PdfObject)
end

/-- Lookup `resources.GetExtGState(name)`. -/
def PdfPageResources.GetExtGState : PdfPageResources → String → Option PdfObject
  | .mk ext _ _, n => ext.lookup n

/-- Lookup `resources.GetFontByName(name)`. -/
def PdfPageResources.GetFontByName : PdfPageResources → String → Option FontResource
  | .mk _ fonts _, n => fonts.lookup n

/-- Lookup behind `resources.GetXObjectByName(name)`; `none` is the undefined
XObject type. -/
def PdfPageResources.GetXObjectByName : PdfPageResources → String → Option XObject
  | .mk _ _ xs, n => xs.lookup n

def XObjectForm.content : XObjectForm → Except Err ContentStream
  | .mk c _ _ _ => c

def XObjectForm.Resources : XObjectForm → Option PdfPageResources
  | .mk _ r _ _ => r

def XObjectForm.Matrix : XObjectForm → Option PdfObject
  | .mk _ _ m _ => m

def XObjectForm.BBox : XObjectForm → Option PdfObject
  | .mk _ _ _ b => b

/-! ## Graphics state handed over by the processor -/

/-- An RGB colour (`pdf.PdfColorDeviceRGB`). -/
structure RGB where
  R : ℚ
  G : ℚ
  B : ℚ
  deriving DecidableEq, Repr

/-- A colour space (`pdf.PdfColorspace`), reduced to the conversion method the
handler calls. -/
structure PdfColorspace where
  ColorToRGB : List ℚ → Except Err RGB

/-- The processor's transformation matrix, reduced to the two methods the
handler calls, each represented by the value it returns. -/
structure TransformMatrix where
  ScalingFactorX : ℚ
  ScalingFactorY : ℚ
  deriving DecidableEq, Repr

/-- Graphics state the processor passes to the handler
(`pdfcontent.GraphicsState`): the fields the handler reads. -/
structure GraphicsState where
  CTM : TransformMatrix
  ColorspaceStroking : PdfColorspace
  ColorspaceNonStroking : PdfColorspace
  ColorStroking : List ℚ
  ColorNonStroking : List ℚ
  AlphaStroking : ℚ
  AlphaNonStroking : ℚ

/-- The device RGB colour space: a colour of three components converts to
itself, any other colour is rejected by the library. -/
def DeviceRGB : PdfColorspace where
  ColorToRGB := fun c =>
    match c with
    | [r, g, b] => .ok ⟨r, g, b⟩
    | _ => .error (.lib "range check error")

/-! ## Drawing context

The drawing context is the imported library `gg` (the fork named in the import
list of the program); none of it is part of the repository. The model below
keeps what the handler can drive and what the properties observe: the
attributes `Pop` brings back, one path (the outline the library strokes; the
library's second copy of the path, used for filling, differs from it only by
the closing segments it adds), the start and current point, the clip mask as
the list of regions intersected so far, the painting calls made, and the stack
of saved attributes. Method bodies follow the library: points are placed by
the current matrix when a segment is added, `LineTo` without a current point is
a `MoveTo`, `ClosePath` adds a line back to the start of the subpath, `Stroke`,
`Fill` and `Clip` are their `Preserve` variants followed by `ClearPath`. A
curve is kept as a curve (the library flattens it into short lines).
`GetLineWidth` is the field `attrs.lineWidth`. -/

/-- Affine matrix of the drawing context (`gg.Matrix`), fields in the order of
the library. -/
structure Matrix where
  XX : ℚ
  YX : ℚ
  XY : ℚ
  YY : ℚ
  X0 : ℚ
  Y0 : ℚ
  deriving DecidableEq, Repr

/-- A point of the drawing surface. -/
structure Point where
  X : ℚ
  Y : ℚ
  deriving DecidableEq, Repr

/-- The identity matrix. -/
def Matrix.Identity : Matrix := ⟨1, 0, 0, 1, 0, 0⟩

/-- Product `a.Multiply(b)`: the matrix that applies `a` first and `b` second. -/
def Matrix.Multiply (a b : Matrix) : Matrix :=
  ⟨a.XX * b.XX + a.YX * b.XY,
   a.XX * b.YX + a.YX * b.YY,
   a.XY * b.XX + a.YY * b.XY,
   a.XY * b.YX + a.YY * b.YY,
   a.X0 * b.XX + a.Y0 * b.XY + b.X0,
   a.X0 * b.YX + a.Y0 * b.YY + b.Y0⟩

/-- Image of the point `(x, y)` under the matrix. -/
def Matrix.TransformPoint (m : Matrix) (x y : ℚ) : Point :=
  ⟨m.XX * x + m.XY * y + m.X0, m.YX * x + m.YY * y + m.Y0⟩

inductive LineCap where
  | LineCapRound
  | LineCapButt
  | LineCapSquare
  deriving DecidableEq, Repr

inductive LineJoin where
  | LineJoinRound
  | LineJoinBevel
  deriving DecidableEq, Repr

inductive FillRule where
  | FillRuleWinding
  | FillRuleEvenOdd
  deriving DecidableEq, Repr

/-- A colour with alpha, as set by `SetRGBA`. -/
structure RGBA where
  R : ℚ
  G : ℚ
  B : ℚ
  A : ℚ
  deriving DecidableEq, Repr

/-- A font face: the parsed font it was made from and its size. -/
structure Face where
  font : String
  Size : ℚ
  deriving DecidableEq, Repr

/-- A segment of the current path, in device coordinates: the start of a
subpath, a straight line to a point, or a cubic curve given by its two control
points and its end point. -/
inductive PathSeg where
  | start (p : Point)
  | line (p : Point)
  | cubic (c1 c2 p : Point)
  deriving DecidableEq, Repr

/-- The attributes of the drawing context that `Pop` brings back. -/
structure Attrs where
  color : RGBA
  dashes : List ℚ
  lineWidth : ℚ
  lineCap : LineCap
  lineJoin : LineJoin
  fillRule : FillRule
  fontFace : Option Face
  matrix : Matrix
  deriving DecidableEq, Repr

/-- A region added to the clip mask: a path and the rule that fills it. -/
structure ClipRegion where
  path : List PathSeg
  rule : FillRule
  deriving DecidableEq, Repr

/-- What a painting call put on the surface. -/
inductive Paint where
  | stroke (path : List PathSeg) (color : RGBA) (lineWidth : ℚ)
  | fill (path : List PathSeg) (color : RGBA) (rule : FillRule)
  | image (img : GoImage) (matrix : Matrix)
  | text (s : String) (at_ : Point) (color : RGBA)
  deriving DecidableEq, Repr

/-- One painting call together with the clip mask it was drawn under. -/
structure Painted where
  what : Paint
  mask : List ClipRegion
  deriving DecidableEq, Repr

/-- Modelled from the spec: the raster canvas (the imported `gg.Context`) is an
external collaborator; this is its state as far as the handler can drive it:
the current attributes, the path under construction with its start and current
point, the clip mask, what has been painted, and the stack of saved
attributes. -/
structure Context where
  attrs : Attrs
  path : List PathSeg
  start : Point
  current : Point
  hasCurrent : Bool
  mask : List ClipRegion
  im : List Painted
  stack : List Attrs
  deriving DecidableEq, Repr

/-- A method of the drawing context invoked by the handler, with its
arguments. -/
inductive Call where
  | Push
  | Pop
  | ConcatMatrix (m : Matrix)
  | Scale (x y : ℚ)
  | SetLineWidth (w : ℚ)
  | SetLineCap (c : LineCap)
  | SetLineJoin (j : LineJoin)
  | SetDash (dashes : List ℚ)
  | SetRGBA (r g b a : ℚ)
  | SetRGB (r g b : ℚ)
  | SetFillRule (r : FillRule)
  | SetFontFace (f : Face)
  | NewSubPath
  | MoveTo (x y : ℚ)
  | LineTo (x y : ℚ)
  | CubicTo (x1 y1 x2 y2 x3 y3 : ℚ)
  | ClosePath
  | ClearPath
  | DrawRectangle (x y w h : ℚ)
  | Stroke
  | Fill
  | FillPreserve
  | ClipPreserve
  | Clip
  | DrawImageAnchored (img : GoImage) (x y : Int) (ax ay : ℚ)
  | DrawString (s : String) (x y : ℚ)
  deriving DecidableEq, Repr

namespace Context

/-- `dc.NewSubPath()`: the next segment starts a subpath. -/
def NewSubPath (dc : Context) : Context :=
  { dc with hasCurrent := false }

/-- `dc.MoveTo(x, y)`: starts a subpath at the image of the point. -/
def MoveTo (dc : Context) (x y : ℚ) : Context :=
  let p := dc.attrs.matrix.TransformPoint x y
  { dc with path := dc.path ++ [.start p], start := p, current := p, hasCurrent := true }

/-- `dc.LineTo(x, y)`: a line to the image of the point, or a `MoveTo` when
there is no current point. -/
def LineTo (dc : Context) (x y : ℚ) : Context :=
  if dc.hasCurrent then
    let p := dc.attrs.matrix.TransformPoint x y
    { dc with path := dc.path ++ [.line p], current := p }
  else dc.MoveTo x y

/-- `dc.CubicTo(x1, y1, x2, y2, x3, y3)`: a cubic curve from the current point
with the two control points and the end point given; without a current point
it first moves to the first control point. -/
def CubicTo (dc : Context) (x1 y1 x2 y2 x3 y3 : ℚ) : Context :=
  let dc1 := if dc.hasCurrent then dc else dc.MoveTo x1 y1
  let c1 := dc1.attrs.matrix.TransformPoint x1 y1
  let c2 := dc1.attrs.matrix.TransformPoint x2 y2
  let p := dc1.attrs.matrix.TransformPoint x3 y3
  { dc1 with path := dc1.path ++ [.cubic c1 c2 p], current := p }

/-- `dc.ClosePath()`: a line back to the start of the subpath. -/
def ClosePath (dc : Context) : Context :=
  if dc.hasCurrent then
    { dc with path := dc.path ++ [.line dc.start], current := dc.start }
  else dc

/-- `dc.ClearPath()`. -/
def ClearPath (dc : Context) : Context :=
  { dc with path := [], hasCurrent := false }

/-- `dc.DrawRectangle(x, y, w, h)`: a new closed subpath through the four
corners. -/
def DrawRectangle (dc : Context) (x y w h : ℚ) : Context :=
  (((((dc.NewSubPath).MoveTo x y).LineTo (x + w) y).LineTo (x + w) (y + h)).LineTo x (y + h)).ClosePath

/-- `dc.SetRGBA(r, g, b, a)`. -/
def SetRGBA (dc : Context) (r g b a : ℚ) : Context :=
  { dc with attrs := { dc.attrs with color := ⟨r, g, b, a⟩ } }

/-- `dc.StrokePreserve()`: paints the outline of the path. -/
def StrokePreserve (dc : Context) : Context :=
  { dc with im := dc.im ++ [⟨.stroke dc.path dc.attrs.color dc.attrs.lineWidth, dc.mask⟩] }

/-- `dc.FillPreserve()`: paints the inside of the path. -/
def FillPreserve (dc : Context) : Context :=
  { dc with im := dc.im ++ [⟨.fill dc.path dc.attrs.color dc.attrs.fillRule, dc.mask⟩] }

/-- `dc.ClipPreserve()`: intersects the clip mask with the inside of the
path. -/
def ClipPreserve (dc : Context) : Context :=
  { dc with mask := dc.mask ++ [⟨dc.path, dc.attrs.fillRule⟩] }

/-- `dc.Push()`: saves a copy of the state. -/
def Push (dc : Context) : Context :=
  { dc with stack := dc.attrs :: dc.stack }

/-- `dc.Pop()`: takes the last saved state off the stack, keeping the path,
the current point and the mask. The library indexes the last element of the
stack without a check, so with an empty stack the call does not return (a
runtime panic): `none`. -/
def Pop (dc : Context) : Option Context :=
  match dc.stack with
  | [] => none
  | x :: s => some { dc with attrs := x, stack := s }

/-- Modelled from the spec: `concat(M)` sets the transform to the incoming
matrix followed by the existing one. -/
def ConcatMatrix (dc : Context) (m : Matrix) : Context :=
  { dc with attrs := { dc.attrs with matrix := m.Multiply dc.attrs.matrix } }

/-- `dc.Scale(x, y)`: a scaling put before the existing transform. -/
def Scale (dc : Context) (x y : ℚ) : Context :=
  { dc with attrs := { dc.attrs with matrix := (Matrix.mk x 0 0 y 0 0).Multiply dc.attrs.matrix } }

/-- Effect of one call on the state of the drawing context; `none` when the
call does not return. -/
def apply (dc : Context) : Call → Option Context
  | .Push => some dc.Push
  | .Pop => dc.Pop
  | .ConcatMatrix m => some (dc.ConcatMatrix m)
  | .Scale x y => some (dc.Scale x y)
  | .SetLineWidth w => some { dc with attrs := { dc.attrs with lineWidth := w } }
  | .SetLineCap c => some { dc with attrs := { dc.attrs with lineCap := c } }
  | .SetLineJoin j => some { dc with attrs := { dc.attrs with lineJoin := j } }
  | .SetDash ds => some { dc with attrs := { dc.attrs with dashes := ds } }
  | .SetRGBA r g b a => some (dc.SetRGBA r g b a)
  | .SetRGB r g b => some (dc.SetRGBA r g b 1)
  | .SetFillRule r => some { dc with attrs := { dc.attrs with fillRule := r } }
  | .SetFontFace f => some { dc with attrs := { dc.attrs with fontFace := some f } }
  | .NewSubPath => some dc.NewSubPath
  | .MoveTo x y => some (dc.MoveTo x y)
  | .LineTo x y => some (dc.LineTo x y)
  | .CubicTo x1 y1 x2 y2 x3 y3 => some (dc.CubicTo x1 y1 x2 y2 x3 y3)
  | .ClosePath => some dc.ClosePath
  | .ClearPath => some dc.ClearPath
  | .DrawRectangle x y w h => some (dc.DrawRectangle x y w h)
  | .Stroke => some dc.StrokePreserve.ClearPath
  | .Fill => some dc.FillPreserve.ClearPath
  | .FillPreserve => some dc.FillPreserve
  | .ClipPreserve => some dc.ClipPreserve
  | .Clip => some dc.ClipPreserve.ClearPath
  | .DrawImageAnchored img _ _ _ _ =>
    some { dc with im := dc.im ++ [⟨.image img dc.attrs.matrix, dc.mask⟩] }
  | .DrawString s x y =>
    some { dc with im := dc.im ++ [⟨.text s (dc.attrs.matrix.TransformPoint x y) dc.attrs.color, dc.mask⟩] }

end Context

/-! ## Render context and outcomes -/

/-- The render context of the program, with the list of drawing-context calls
issued so far (oldest first) kept alongside. -/
structure renderContext where
  Width : ℚ
  Height : ℚ
  dc : Context
  fface : Option Face
  calls : List Call
  deriving DecidableEq, Repr

/-- How the handler (or a whole run) ends: it returns nil, it returns an
error, or a library call does not return (a runtime panic: in the drawing
context, or in the processor's own stack during a run). Each case carries the
render context as it was left. -/
inductive Outcome where
  | ok (ctx : renderContext)
  | error (e : Err) (ctx : renderContext)
  | crash (ctx : renderContext)
  deriving DecidableEq, Repr

/-- Issues the calls in order on the drawing context, recording each one. -/
def renderContext.issue (ctx : renderContext) : List Call → Outcome
  | [] => .ok ctx
  | c :: cs =>
    match ctx.dc.apply c with
    | some dc => renderContext.issue { ctx with dc := dc, calls := ctx.calls ++ [c] } cs
    | none => .crash { ctx with calls := ctx.calls ++ [c] }

/-- Continues with `k` after a step that returned nil. -/
def Outcome.andThen (r : Outcome) (k : renderContext → Outcome) : Outcome :=
  match r with
  | .ok ctx => k ctx
  | other => other

/-- Continues with `k`, a step that may itself not finish, after a step that
returned nil. -/
def Outcome.andThenRun (r : Outcome) (k : renderContext → Option Outcome) : Option Outcome :=
  match r with
  | .ok ctx => k ctx
  | other => some other

/-- Number of `Push` calls in a list of calls. -/
def pushCount (cs : List Call) : Nat := cs.count .Push

/-- Number of `Pop` calls in a list of calls. -/
def popCount (cs : List Call) : Nat := cs.count .Pop

/-- Depth of the state stack of the drawing context. -/
def renderContext.depth (ctx : renderContext) : Nat := ctx.dc.stack.length

/-- The render context an outcome carries. -/
def Outcome.ctx : Outcome → renderContext
  | .ok c => c
  | .error _ c => c
  | .crash c => c

/-! ## The handler -/

/-- Calls issued by the loop of `TJ` over the elements of its array: a string
is drawn, a number moves the current point, anything else is passed over. -/
def tjCalls : List PdfObject → List Call
  | [] => []
  | .string t :: rest => .DrawString t 0 0 :: tjCalls rest
  | .float t :: rest => .MoveTo t 0 :: tjCalls rest
  | .integer t :: rest => .MoveTo (t : ℚ) 0 :: tjCalls rest
  | _ :: rest => tjCalls rest

/-- The two colour steps shared by the painting operators: convert the colour
with its colour space, and set it with the given alpha. -/
def setColor (cs : PdfColorspace) (color : List ℚ) (alpha : ℚ) (ctx : renderContext) : Outcome :=
  match cs.ColorToRGB color with
  | .error e => .error e ctx
  | .ok rgbColor => ctx.issue [.SetRGBA rgbColor.R rgbColor.G rgbColor.B alpha]

/-- The `Matrix` part of `Do` on a form. -/
def formMatrix (xform : XObjectForm) (ctx : renderContext) : Outcome :=
  match xform.Matrix with
  | none => .ok ctx
  | some obj =>
    match GetArray obj with
    | none => .error .errType ctx
    | some elements =>
      match GetNumbersAsFloat elements with
      | .error e => .error e ctx
      | .ok mf =>
        if mf.length ≠ 6 then .error .errRange ctx
        else
          let m : Matrix :=
            { XX := mf.getD 0 0, YX := mf.getD 1 0, XY := mf.getD 2 0,
              YY := mf.getD 3 0, X0 := mf.getD 4 0, Y0 := -(mf.getD 5 0) }
          ctx.issue [.ConcatMatrix m]

/-- The `BBox` part of `Do` on a form. -/
def formBBox (xform : XObjectForm) (ctx : renderContext) : Outcome :=
  match xform.BBox with
  | none => .ok ctx
  | some obj =>
    match GetArray obj with
    | none => .error .errType ctx
    | some elements =>
      match GetNumbersAsFloat elements with
      | .error e => .error e ctx
      | .ok bf =>
        if bf.length ≠ 4 then .error .errRange ctx
        else
          ctx.issue
            [.DrawRectangle (bf.getD 0 0) (-(bf.getD 1 0)) (bf.getD 2 0 - bf.getD 0 0)
               (-(bf.getD 3 0 - bf.getD 1 0)),
             .SetRGB 1 0 0,
             .Clip]

/-- Drawing of a decoded image (`Do` on an image, and `BI`). -/
def drawImage (goImg : GoImage) (ctx : renderContext) : Outcome :=
  ctx.issue
    [.Push, .Scale (1 / (goImg.Dx : ℚ)) (1 / (goImg.Dy : ℚ)),
     .DrawImageAnchored goImg 0 0 0 1, .Pop]

/-- The part of `Do` after the name was read: an image is drawn, a form is
interpreted between a `Push` and a `Pop`, any other name is passed over. -/
def doXObject (rec : ContentStream → PdfPageResources → renderContext → Option Outcome)
    (resources : PdfPageResources) (name : String) (ctx : renderContext) : Option Outcome :=
  match resources.GetXObjectByName name with
  | some (.image decoded) =>
    match decoded with
    | .error e => some (.error e ctx)
    | .ok goImg => some (drawImage goImg ctx)
  | some (.form fetched) =>
    match fetched with
    | .error e => some (.error e ctx)
    | .ok xform =>
      match xform.content with
      | .error e => some (.error e ctx)
      | .ok formContent =>
        let formResources :=
          match xform.Resources with
          | none => resources
          | some r => r
        (((ctx.issue [.Push]).andThen (formMatrix xform)).andThen (formBBox xform)).andThenRun
          fun ctx => (rec formContent formResources ctx).map
            fun r => r.andThen fun ctx => ctx.issue [.Pop]
  | none => some (.ok ctx)

/-- The part of `Tf` after the font was found in the resources: the font
dictionary, the descriptor, the embedded font program, and the face set on the
drawing context. -/
def loadFont (font : FontResource) (fsize : ℚ) (ctx : renderContext) : Outcome :=
  match GetDict font.fObj with
  | none => .error .errType ctx
  | some _ =>
    match font.descriptor with
    | .error e => .error e ctx
    | .ok none => .error .fontDescriptorMissing ctx
    | .ok (some none) => .ok ctx
    | .ok (some (some fontFile)) =>
      match fontFile.parsed with
      | .error e => .error e ctx
      | .ok tfont =>
        let face : Face := { font := tfont, Size := fsize }
        renderContext.issue { ctx with fface := some face } [.SetFontFace face]

/-- The handler registered by `renderContentStream` for all operators. `rec`
stands for the nested `renderContentStream` call of `Do` on a form; the result
is `none` only when that nested call does not finish. -/
def handler (rec : ContentStream → PdfPageResources → renderContext → Option Outcome)
    (op : ContentStreamOperation) (gs : GraphicsState) (resources : PdfPageResources)
    (ctx : renderContext) : Option Outcome :=
  match op.Operand with
  -- Graphics state operators.
  | "q" => some (ctx.issue [.Push])
  | "Q" => some (ctx.issue [.Pop])
  | "cm" =>
    if op.Params.length ≠ 6 then some (.error .errRange ctx) else
    match GetNumbersAsFloat op.Params with
    | .error e => some (.error e ctx)
    | .ok fv =>
      let m : Matrix :=
        { XX := fv.getD 0 0, YX := fv.getD 1 0, XY := fv.getD 2 0,
          YY := fv.getD 3 0, X0 := fv.getD 4 0, Y0 := -(fv.getD 5 0) }
      some ((ctx.issue [.ConcatMatrix m]).andThen fun ctx =>
        let s := (gs.CTM.ScalingFactorX + gs.CTM.ScalingFactorY) / 2
        let w := ctx.dc.attrs.lineWidth * s
        ctx.issue [.SetLineWidth w])
  | "w" =>
    if op.Params.length ≠ 1 then some (.error .errRange ctx) else
    match GetNumbersAsFloat op.Params with
    | .error e => some (.error e ctx)
    | .ok fw =>
      let s := (gs.CTM.ScalingFactorX + gs.CTM.ScalingFactorY) / 2
      some (ctx.issue [.SetLineWidth (s * fw.getD 0 0)])
  | "J" =>
    if op.Params.length ≠ 1 then some (.error .errRange ctx) else
    match GetIntVal (op.Params.getD 0 .null) with
    | none => some (.error .errType ctx)
    | some 0 => some (ctx.issue [.SetLineCap .LineCapButt])
    | some 1 => some (ctx.issue [.SetLineCap .LineCapRound])
    | some 2 => some (ctx.issue [.SetLineCap .LineCapSquare])
    | some _ => some (.error .errRange ctx)
  | "j" =>
    if op.Params.length ≠ 1 then some (.error .errRange ctx) else
    match GetIntVal (op.Params.getD 0 .null) with
    | none => some (.error .errType ctx)
    | some 0 => some (ctx.issue [.SetLineJoin .LineJoinBevel])
    | some 1 => some (ctx.issue [.SetLineJoin .LineJoinRound])
    | some 2 => some (ctx.issue [.SetLineJoin .LineJoinBevel])
    | some _ => some (.error .errRange ctx)
  | "M" =>
    if op.Params.length ≠ 1 then some (.error .errRange ctx) else
    match GetNumbersAsFloat op.Params with
    | .error e => some (.error e ctx)
    | .ok _ => some (.ok ctx)
  | "d" =>
    if op.Params.length ≠ 2 then some (.error .errRange ctx) else
    match GetArray (op.Params.getD 0 .null) with
    | none => some (.error .errType ctx)
    | some dashArray =>
      match GetIntVal (op.Params.getD 1 .null) with
      | none => some (.error .errType ctx)
      | some _ =>
        match GetNumbersAsFloat dashArray with
        | .error e => some (.error e ctx)
        | .ok dashes => some (ctx.issue [.SetDash dashes])
  | "ri" => some (.ok ctx)
  | "i" => some (.ok ctx)
  | "gs" =>
    if op.Params.length ≠ 1 then some (.error .errRange ctx) else
    match GetName (op.Params.getD 0 .null) with
    | none => some (.error .errType ctx)
    | some rname =>
      match resources.GetExtGState rname with
      | none => some (.error .resourceNotFound ctx)
      | some extobj =>
        match GetDict extobj with
        | none => some (.error .errType ctx)
        | some _ => some (.ok ctx)
  -- Path operators.
  | "m" =>
    if op.Params.length ≠ 2 then some (.error .errRange ctx) else
    match GetNumbersAsFloat op.Params with
    | .error e => some (.error e ctx)
    | .ok xy => some (ctx.issue [.NewSubPath, .MoveTo (xy.getD 0 0) (-(xy.getD 1 0))])
  | "l" =>
    if op.Params.length ≠ 2 then some (.error .errRange ctx) else
    match GetNumbersAsFloat op.Params with
    | .error e => some (.error e ctx)
    | .ok xy => some (ctx.issue [.LineTo (xy.getD 0 0) (-(xy.getD 1 0))])
  | "c" =>
    if op.Params.length ≠ 6 then some (.error .errRange ctx) else
    match GetNumbersAsFloat op.Params with
    | .error e => some (.error e ctx)
    | .ok cbp =>
      some (ctx.issue [.CubicTo (cbp.getD 0 0) (-(cbp.getD 1 0)) (cbp.getD 2 0)
        (-(cbp.getD 3 0)) (cbp.getD 4 0) (-(cbp.getD 5 0))])
  | "v" =>
    if op.Params.length ≠ 4 then some (.error .errRange ctx) else
    match GetNumbersAsFloat op.Params with
    | .error e => some (.error e ctx)
    | .ok cbp =>
      some (ctx.issue [.CubicTo 0 0 (cbp.getD 0 0) (-(cbp.getD 1 0)) (cbp.getD 2 0)
        (-(cbp.getD 3 0))])
  | "h" => some (ctx.issue [.ClosePath, .NewSubPath])
  | "re" =>
    if op.Params.length ≠ 4 then some (.error .errRange ctx) else
    match GetNumbersAsFloat op.Params with
    | .error e => some (.error e ctx)
    | .ok xywh =>
      some (ctx.issue [.DrawRectangle (xywh.getD 0 0) (-(xywh.getD 1 0)) (xywh.getD 2 0)
        (-(xywh.getD 3 0)), .NewSubPath])
  -- Path painting operators.
  | "S" =>
    some ((setColor gs.ColorspaceStroking gs.ColorStroking gs.AlphaStroking ctx).andThen
      fun ctx => ctx.issue [.Stroke])
  | "s" =>
    some ((setColor gs.ColorspaceStroking gs.ColorStroking gs.AlphaStroking ctx).andThen
      fun ctx => ctx.issue [.Stroke])
  | "f" | "F" =>
    some ((setColor gs.ColorspaceNonStroking gs.ColorNonStroking gs.AlphaNonStroking ctx).andThen
      fun ctx => ctx.issue [.SetFillRule .FillRuleWinding, .Fill])
  | "f*" =>
    some ((setColor gs.ColorspaceNonStroking gs.ColorNonStroking gs.AlphaNonStroking ctx).andThen
      fun ctx => ctx.issue [.SetFillRule .FillRuleEvenOdd, .Fill])
  | "B" =>
    some (((setColor gs.ColorspaceNonStroking gs.ColorNonStroking gs.AlphaNonStroking ctx).andThen
      fun ctx => ctx.issue [.SetFillRule .FillRuleWinding, .FillPreserve]).andThen
      fun ctx => (setColor gs.ColorspaceStroking gs.ColorStroking gs.AlphaStroking ctx).andThen
      fun ctx => ctx.issue [.Stroke])
  | "B*" =>
    some (((setColor gs.ColorspaceNonStroking gs.ColorNonStroking gs.AlphaNonStroking ctx).andThen
      fun ctx => ctx.issue [.SetFillRule .FillRuleEvenOdd, .FillPreserve]).andThen
      fun ctx => (setColor gs.ColorspaceStroking gs.ColorStroking gs.AlphaStroking ctx).andThen
      fun ctx => ctx.issue [.Stroke])
  | "b" =>
    some (((setColor gs.ColorspaceNonStroking gs.ColorNonStroking gs.AlphaNonStroking ctx).andThen
      fun ctx => ctx.issue [.ClosePath, .NewSubPath, .SetFillRule .FillRuleWinding,
        .FillPreserve]).andThen
      fun ctx => (setColor gs.ColorspaceStroking gs.ColorStroking gs.AlphaStroking ctx).andThen
      fun ctx => ctx.issue [.Stroke])
  | "b*" =>
    some (((setColor gs.ColorspaceNonStroking gs.ColorNonStroking gs.AlphaNonStroking ctx).andThen
      fun ctx => ctx.issue [.ClosePath, .NewSubPath, .SetFillRule .FillRuleEvenOdd,
        .FillPreserve]).andThen
      fun ctx => (setColor gs.ColorspaceStroking gs.ColorStroking gs.AlphaStroking ctx).andThen
      fun ctx => ctx.issue [.Stroke])
  | "n" => some (ctx.issue [.ClearPath])
  -- Clipping path operators.
  | "W" => some (ctx.issue [.SetFillRule .FillRuleWinding, .ClipPreserve])
  | "W*" => some (ctx.issue [.SetFillRule .FillRuleEvenOdd, .ClipPreserve])
  -- Image operators.
  | "Do" =>
    if op.Params.length ≠ 1 then some (.error .errRange ctx) else
    match GetName (op.Params.getD 0 .null) with
    | none => some (.error .errType ctx)
    | some name =>
      doXObject rec resources name ctx
  | "BI" =>
    if op.Params.length ≠ 1 then some (.error .errRange ctx) else
    match op.Params.getD 0 .null with
    | .inlineImage decoded =>
      match decoded with
      | .error e => some (.error e ctx)
      | .ok goImg => some (drawImage goImg ctx)
    | _ => some (.ok ctx)
  -- Text operators.
  | "BT" => some (ctx.issue [.Push])
  | "ET" => some (ctx.issue [.Pop])
  | "Td" =>
    if op.Params.length ≠ 2 then some (.error .errRange ctx) else
    match GetNumbersAsFloat op.Params with
    | .error e => some (.error e ctx)
    | .ok fv => some (ctx.issue [.MoveTo (fv.getD 0 0) (-(fv.getD 1 0))])
  | "TD" =>
    if op.Params.length ≠ 2 then some (.error .errRange ctx) else
    match GetNumbersAsFloat op.Params with
    | .error e => some (.error e ctx)
    | .ok fv => some (ctx.issue [.MoveTo (fv.getD 0 0) (10 - fv.getD 1 0)])
  | "Tm" =>
    if op.Params.length ≠ 6 then some (.error .errRange ctx) else
    match GetNumbersAsFloat op.Params with
    | .error e => some (.error e ctx)
    | .ok _ => some (.ok ctx)
  | "\x27" =>
    some ((ctx.issue [.MoveTo 0 10]).andThen fun ctx =>
      if op.Params.length ≠ 1 then .error .errRange ctx else
      match GetStringBytes (op.Params.getD 0 .null) with
      | none => .error .errType ctx
      | some charcodes => ctx.issue [.DrawString charcodes 0 0])
  | "\x27\x27" =>
    some ((ctx.issue [.MoveTo 0 10]).andThen fun ctx =>
      if op.Params.length ≠ 3 then .error .errRange ctx else
      match GetStringBytes (op.Params.getD 2 .null) with
      | none => .error .errType ctx
      | some charcodes => ctx.issue [.DrawString charcodes 0 0])
  | "Tj" =>
    if op.Params.length ≠ 1 then some (.error .errRange ctx) else
    match GetStringBytes (op.Params.getD 0 .null) with
    | none => some (.error .errType ctx)
    | some charcodes => some (ctx.issue [.DrawString charcodes 0 0])
  | "TJ" =>
    if op.Params.length ≠ 1 then some (.error .errRange ctx) else
    match GetArray (op.Params.getD 0 .null) with
    | none => some (.error .errType ctx)
    | some elements => some (ctx.issue (tjCalls elements))
  | "Tf" =>
    if op.Params.length ≠ 2 then some (.error .errRange ctx) else
    match GetName (op.Params.getD 0 .null) with
    | none => some (.error .errType ctx)
    | some fname =>
      match GetNumberAsFloat (op.Params.getD 1 .null) with
      | .error _ => some (.error .errType ctx)
      | .ok fsize =>
        match resources.GetFontByName fname with
        | none => some (.error .fontNotFound ctx)
        | some font => some (loadFont font fsize ctx)
  | _ => some (.ok ctx)

/-! ## The processor and `renderContentStream` -/

/-- The content-stream processor of the library, as far as the handler sees
it: for a resource scope and the operations read so far (the current one
last) it either stops with an error of its own or yields the graphics state it
passes to the handler. -/
structure Processor where
  gsOf : PdfPageResources → List ContentStreamOperation → Except Err GraphicsState

/-- Number of operations with the given operator in a list. -/
def countOp (operator : String) (ops : List ContentStreamOperation) : Nat :=
  ops.countP fun op => op.Operand = operator

/-- The loop of `processor.Process`: each operation in turn goes through the
processor's own handling and is then given to the handler `h` with the
processor's graphics state; the first outcome that is not a plain return ends
the run. `done` holds the operations already handled. The processor keeps a
stack of graphics states of its own, pushed at `q` and popped at `Q`; at a `Q`
with that stack empty (as many `Q` as `q` read before it) the library's pop
fails with a runtime panic before the handler is called, so the run ends
there with the render context untouched. -/
def Process (proc : Processor)
    (h : ContentStreamOperation → GraphicsState → PdfPageResources → renderContext → Option Outcome)
    (resources : PdfPageResources) :
    List ContentStreamOperation → List ContentStreamOperation → renderContext → Option Outcome
  | _, [], ctx => some (.ok ctx)
  | done, op :: rest, ctx =>
    if op.Operand = "Q" ∧ countOp "q" done ≤ countOp "Q" done then some (.crash ctx) else
    match proc.gsOf resources (done ++ [op]) with
    | .error e => some (.error e ctx)
    | .ok gs =>
      match h op gs resources ctx with
      | some (.ok ctx1) => Process proc h resources (done ++ [op]) rest ctx1
      | other => other

/-- The function `renderContentStream`: parse, register the handler, process.
The first argument bounds the nesting of form interpretations; `none` means the
bound was reached. -/
def renderContentStream (proc : Processor) :
    Nat → ContentStream → PdfPageResources → renderContext → Option Outcome
  | 0, _, _, _ => none
  | fuel + 1, contents, resources, ctx =>
    match contents with
    | .error e => some (.error e ctx)
    | .ok operations =>
      Process proc (handler (renderContentStream proc fuel)) resources [] operations ctx

/-! ## Inputs used in the statements -/

/-- A drawing context as `gg.NewContext` makes it: identity transform, line
width 1, empty path, empty stack, nothing painted. -/
def NewContext : Context where
  attrs :=
    { color := ⟨0, 0, 0, 0⟩, dashes := [], lineWidth := 1, lineCap := .LineCapRound,
      lineJoin := .LineJoinRound, fillRule := .FillRuleWinding, fontFace := none,
      matrix := .Identity }
  path := []
  start := ⟨0, 0⟩
  current := ⟨0, 0⟩
  hasCurrent := false
  mask := []
  im := []
  stack := []

/-- A render context around a fresh drawing context, for a page of 612 by 812
units, before any call was issued. -/
def newRenderContext : renderContext :=
  { Width := 612, Height := 812, dc := NewContext, fface := none, calls := [] }

/-- A graphics state with identity scaling factors, both colour spaces device
RGB, and the given stroking colour at full opacity. -/
def rgbGraphicsState (stroking : List ℚ) : GraphicsState :=
  { CTM := ⟨1, 1⟩, ColorspaceStroking := DeviceRGB, ColorspaceNonStroking := DeviceRGB,
    ColorStroking := stroking, ColorNonStroking := [0, 0, 0], AlphaStroking := 1,
    AlphaNonStroking := 1 }

/-- A processor that hands the same graphics state to the handler at every
operation. -/
def constProcessor (gs : GraphicsState) : Processor :=
  { gsOf := fun _ _ => .ok gs }

/-- The resource scope with no entries. -/
def emptyResources : PdfPageResources := .mk [] [] []

/-- The operation `a b c d e f cm` for the matrix with these coefficients. -/
def cmOp (M : Matrix) : ContentStreamOperation :=
  ⟨"cm", [.float M.XX, .float M.YX, .float M.XY, .float M.YY, .float M.X0, .float M.Y0]⟩

/-- The operation `x y m`. -/
def mOp (x y : ℚ) : ContentStreamOperation := ⟨"m", [.float x, .float y]⟩

/-- The operation `x y l`. -/
def lOp (x y : ℚ) : ContentStreamOperation := ⟨"l", [.float x, .float y]⟩

/-- The operation `x2 y2 x3 y3 v`. -/
def vOp (x2 y2 x3 y3 : ℚ) : ContentStreamOperation :=
  ⟨"v", [.float x2, .float y2, .float x3, .float y3]⟩

/-- The operation `x y w h re`. -/
def reOp (x y w h : ℚ) : ContentStreamOperation :=
  ⟨"re", [.float x, .float y, .float w, .float h]⟩

/-- The operation `/name Do`. -/
def doOp (name : String) : ContentStreamOperation := ⟨"Do", [.name name]⟩

/-- An operation without operands. -/
def plainOp (operator : String) : ContentStreamOperation := ⟨operator, []⟩

/-- The operators whose operand count the handler checks, each with the count
it requires. -/
def fixedArity : List (String × Nat) :=
  [("cm", 6), ("w", 1), ("J", 1), ("j", 1), ("M", 1), ("d", 2), ("gs", 1), ("m", 2), ("l", 2),
   ("c", 6), ("v", 4), ("re", 4), ("Do", 1), ("BI", 1), ("Td", 2), ("TD", 2), ("Tm", 6),
   ("\x27", 1), ("\x27\x27", 3), ("Tj", 1), ("TJ", 1), ("Tf", 2)]

/-- The nested interpretation a `Do` operation starts, if it starts one: the
content stream of the form it names and the resource scope that stream is
interpreted with (the scope of the form, or the current one when the form has
none). -/
def doForm (op : ContentStreamOperation) (resources : PdfPageResources) :
    Option (ContentStream × PdfPageResources) :=
  if op.Operand = "Do" ∧ op.Params.length = 1 then
    match GetName (op.Params.getD 0 .null) with
    | none => none
    | some name =>
      match resources.GetXObjectByName name with
      | some (.form (.ok xform)) =>
        match xform.content with
        | .error _ => none
        | .ok formContent =>
          some (formContent, match xform.Resources with | none => resources | some r => r)
      | _ => none
  else none

/-- The operations a run hands to the handler when every one of them returns
nil: those of the stream, each `Do` on a form being followed by the operations
of the form's stream, to the given nesting bound. -/
def handled : Nat → PdfPageResources → List ContentStreamOperation → List ContentStreamOperation
  | 0, _, _ => []
  | fuel + 1, resources, ops =>
    ops.flatMap fun op =>
      op :: (match doForm op resources with
        | some (.ok formOps, formResources) => handled fuel formResources formOps
        | _ => [])

/-- Forms nest at most `n` deep below the stream: no chain of `Do` operations
on forms, starting in the stream, is longer than `n`. -/
def nestsWithin : Nat → PdfPageResources → List ContentStreamOperation → Bool
  | 0, resources, ops => ops.all fun op => (doForm op resources).isNone
  | n + 1, resources, ops =>
    ops.all fun op =>
      match doForm op resources with
      | some (.ok formOps, formResources) => nestsWithin n formResources formOps
      | _ => true

/-- A form without resources, matrix or bounding box whose content stream is
the given list of operations. -/
def plainForm (ops : List ContentStreamOperation) : XObject :=
  .form (.ok (.mk (.ok (.ok ops)) none none none))

/-- A resource scope whose only entry is the form `F`, with the content stream
`/F Do`: the form invokes itself. -/
def selfReferencing : PdfPageResources :=
  .mk [] [] [("F", plainForm [doOp "F"])]

/-- A resource scope whose only entry is the form `F`, with the content stream
`q`. -/
def unbalancedForm : PdfPageResources :=
  .mk [] [] [("F", plainForm [plainOp "q"])]

/-- The operations `10 10 m 100 10 l 100 100 l h S`. -/
def triangleOps : List ContentStreamOperation :=
  [⟨"m", [.integer 10, .integer 10]⟩, ⟨"l", [.integer 100, .integer 10]⟩,
   ⟨"l", [.integer 100, .integer 100]⟩, plainOp "h", plainOp "S"]

/-- The operations `10 10 m 100 10 l 100 100 l`, which leave a subpath of two
segments open. -/
def openPathOps : List ContentStreamOperation :=
  [⟨"m", [.integer 10, .integer 10]⟩, ⟨"l", [.integer 100, .integer 10]⟩,
   ⟨"l", [.integer 100, .integer 100]⟩]

/-- A quarter turn followed by a shift: the matrix of `0 1 -1 0 5 7 cm`. -/
def quarterTurnShift : Matrix := ⟨0, 1, -1, 0, 5, 7⟩

/-- The matrix `cm` hands to `ConcatMatrix` for the operand matrix `M`: the
six operands in order, the last one negated. -/
def canvasMatrix (M : Matrix) : Matrix :=
  ⟨M.XX, M.YX, M.XY, M.YY, M.X0, -M.Y0⟩

/-- A resource scope whose only entry is the form `F`, with the content stream
`BT ET`. -/
def textForm : PdfPageResources :=
  .mk [] [] [("F", plainForm [plainOp "BT", plainOp "ET"])]

/-- Number of operations that open a saved state (`q`, `BT`) in a list. -/
def opens (ops : List ContentStreamOperation) : Nat := countOp "q" ops + countOp "BT" ops

/-- Number of operations that close a saved state (`Q`, `ET`) in a list. -/
def closes (ops : List ContentStreamOperation) : Nat := countOp "Q" ops + countOp "ET" ops

/-- The calls issued between two render contexts account for `a` opened and `b`
closed states: the later list of calls extends the earlier one, the calls added
hold as many `Push` beyond `a` as `Pop` beyond `b`, and the stack depth moved
from the earlier one by `a` up and `b` down. -/
def Run (ctx c : renderContext) (a b : Nat) : Prop :=
  ∃ cs, c.calls = ctx.calls ++ cs ∧ pushCount cs + b = popCount cs + a ∧
    c.depth + b = ctx.depth + a

/-- An outcome that, when it is a plain return, is a `Run` from `ctx`. -/
def OkRun (ctx : renderContext) (a b : Nat) (r : Outcome) : Prop :=
  ∀ c, r = .ok c → Run ctx c a b

/-- The same for the result of the handler, which may be absent. -/
def OkRunO (ctx : renderContext) (a b : Nat) (o : Option Outcome) : Prop :=
  ∀ r, o = some r → OkRun ctx a b r

/-- A doubling: the matrix of `2 0 0 2 0 0 cm`. -/
def doubling : Matrix := ⟨2, 0, 0, 2, 0, 0⟩

/-- Modelled from the spec: the processor keeps the CTM as the product of the
matrices of the `cm` operations read so far (`CTM' = M_new ∘ CTM_old`), the
current one included, and its scaling factors are the column norms of that
product. This is the processor along a stream in which every `cm` is the
doubling `2 0 0 2 0 0`: both norms are 2 to the number of `cm` read. -/
def doublingProcessor : Processor :=
  { gsOf := fun _ done =>
      .ok { rgbGraphicsState [0, 0, 0] with
        CTM := ⟨2 ^ countOp "cm" done, 2 ^ countOp "cm" done⟩ } }

/-- The operations `0 0 10 10 re W`, which build a square and mark it for
clipping. -/
def clipOps : List ContentStreamOperation := [reOp 0 0 10 10, plainOp "W"]

/-- The square with corners `(0, 0)` and `(10, -10)` as `re` leaves it in the
path of a fresh drawing context. -/
def squarePath : List PathSeg :=
  [.start ⟨0, 0⟩, .line ⟨10, 0⟩, .line ⟨10, -10⟩, .line ⟨0, -10⟩, .line ⟨0, 0⟩]

/-- A form with the given content stream whose `Matrix` entry is a name, not
an array. -/
def badMatrixForm (ops : List ContentStreamOperation) : XObject :=
  .form (.ok (.mk (.ok (.ok ops)) none (some (.name "M")) none))

/-- A resource scope whose only entry is the form `F`, with an empty content
stream and a `Matrix` entry that is not an array. -/
def badMatrixScope : PdfPageResources :=
  .mk [] [] [("F", badMatrixForm [])]

/-- The form of `textForm`: no resources, no matrix, no bounding box, content
stream `BT ET`. -/
def textXForm : XObjectForm :=
  .mk (.ok (.ok [plainOp "BT", plainOp "ET"])) none none none

/-- What `Do` on a form does with the outcome of the nested interpretation: a
plain return is followed by `Pop`, anything else is handed back as it is. -/
def afterForm (r : Outcome) : Outcome :=
  r.andThen fun ctx => ctx.issue [.Pop]

/-- The render context after one call that returned, with the given state of
the drawing context. -/
def renderContext.after (ctx : renderContext) (c : Call) (dc : Context) : renderContext :=
  { ctx with dc := dc, calls := ctx.calls ++ [c] }

/-- An outcome that, when it is the range-check or the type-check error,
carries the render context `ctx`. -/
def ErrKeeps (ctx : renderContext) (r : Outcome) : Prop :=
  ∀ e c, r = .error e c → (e = .errRange ∨ e = .errType) → c = ctx

/-- The same for the result of the handler, which may be absent. -/
def ErrKeepsO (ctx : renderContext) (o : Option Outcome) : Prop :=
  ∀ r, o = some r → ErrKeeps ctx r

/-! # Properties -/

/-! ## Dispatch of the handler on single operators -/

section Dispatch

variable (rec : ContentStream → PdfPageResources → renderContext → Option Outcome)
  (gs : GraphicsState) (resources : PdfPageResources) (ctx : renderContext)

theorem handler_q (params : List PdfObject) :
    handler rec ⟨"q", params⟩ gs resources ctx = some (ctx.issue [.Push]) := rfl

theorem handler_Q (params : List PdfObject) :
    handler rec ⟨"Q", params⟩ gs resources ctx = some (ctx.issue [.Pop]) := rfl

theorem handler_cm (M : Matrix) :
    handler rec (cmOp M) gs resources ctx =
      some ((ctx.issue [.ConcatMatrix ⟨M.XX, M.YX, M.XY, M.YY, M.X0, -M.Y0⟩]).andThen fun c =>
        c.issue [.SetLineWidth
          (c.dc.attrs.lineWidth * ((gs.CTM.ScalingFactorX + gs.CTM.ScalingFactorY) / 2))]) := rfl

theorem handler_m (x y : ℚ) :
    handler rec (mOp x y) gs resources ctx = some (ctx.issue [.NewSubPath, .MoveTo x (-y)]) := rfl

theorem handler_m_int (a b : Int) :
    handler rec ⟨"m", [.integer a, .integer b]⟩ gs resources ctx =
      some (ctx.issue [.NewSubPath, .MoveTo (a : ℚ) (-(b : ℚ))]) := rfl

theorem handler_l_int (a b : Int) :
    handler rec ⟨"l", [.integer a, .integer b]⟩ gs resources ctx =
      some (ctx.issue [.LineTo (a : ℚ) (-(b : ℚ))]) := rfl

theorem handler_v (x2 y2 x3 y3 : ℚ) :
    handler rec (vOp x2 y2 x3 y3) gs resources ctx =
      some (ctx.issue [.CubicTo 0 0 x2 (-y2) x3 (-y3)]) := rfl

theorem handler_h (params : List PdfObject) :
    handler rec ⟨"h", params⟩ gs resources ctx = some (ctx.issue [.ClosePath, .NewSubPath]) := rfl

theorem handler_re (x y w h : ℚ) :
    handler rec (reOp x y w h) gs resources ctx =
      some (ctx.issue [.DrawRectangle x (-y) w (-h), .NewSubPath]) := rfl

theorem handler_S (params : List PdfObject) :
    handler rec ⟨"S", params⟩ gs resources ctx =
      some ((setColor gs.ColorspaceStroking gs.ColorStroking gs.AlphaStroking ctx).andThen
        fun c => c.issue [.Stroke]) := rfl

theorem handler_s (params : List PdfObject) :
    handler rec ⟨"s", params⟩ gs resources ctx =
      some ((setColor gs.ColorspaceStroking gs.ColorStroking gs.AlphaStroking ctx).andThen
        fun c => c.issue [.Stroke]) := rfl

theorem handler_Do (name : String) :
    handler rec (doOp name) gs resources ctx = doXObject rec resources name ctx := rfl

theorem handler_gs (name : String) :
    handler rec ⟨"gs", [.name name]⟩ gs resources ctx =
      (match resources.GetExtGState name with
        | none => some (.error .resourceNotFound ctx)
        | some extobj =>
          match GetDict extobj with
          | none => some (.error .errType ctx)
          | some _ => some (.ok ctx)) := rfl

theorem handler_Tf (name : String) (size : ℚ) :
    handler rec ⟨"Tf", [.name name, .float size]⟩ gs resources ctx =
      (match resources.GetFontByName name with
        | none => some (.error .fontNotFound ctx)
        | some font => some (loadFont font size ctx)) := rfl

end Dispatch

/-! ## Operators of the operations used in the statements -/

@[simp] theorem cmOp_Operand (M : Matrix) : (cmOp M).Operand = "cm" := rfl

@[simp] theorem mOp_Operand (x y : ℚ) : (mOp x y).Operand = "m" := rfl

@[simp] theorem lOp_Operand (x y : ℚ) : (lOp x y).Operand = "l" := rfl

@[simp] theorem vOp_Operand (x2 y2 x3 y3 : ℚ) : (vOp x2 y2 x3 y3).Operand = "v" := rfl

@[simp] theorem reOp_Operand (x y w h : ℚ) : (reOp x y w h).Operand = "re" := rfl

@[simp] theorem doOp_Operand (name : String) : (doOp name).Operand = "Do" := rfl

@[simp] theorem plainOp_Operand (operator : String) : (plainOp operator).Operand = operator :=
  rfl

/-! ## The processing loop -/

theorem Process_cons_ok (proc : Processor)
    (h : ContentStreamOperation → GraphicsState → PdfPageResources → renderContext →
      Option Outcome)
    (resources : PdfPageResources) (done rest : List ContentStreamOperation)
    (op : ContentStreamOperation) (ctx ctx1 : renderContext) (gs : GraphicsState)
    (hq : op.Operand ≠ "Q")
    (hgs : proc.gsOf resources (done ++ [op]) = .ok gs)
    (hh : h op gs resources ctx = some (.ok ctx1)) :
    Process proc h resources done (op :: rest) ctx
      = Process proc h resources (done ++ [op]) rest ctx1 := by
  simp only [Process, hq, false_and, if_false, hgs, hh]

theorem Process_cons_error (proc : Processor)
    (h : ContentStreamOperation → GraphicsState → PdfPageResources → renderContext →
      Option Outcome)
    (resources : PdfPageResources) (done rest : List ContentStreamOperation)
    (op : ContentStreamOperation) (ctx ctx1 : renderContext) (gs : GraphicsState) (e : Err)
    (hq : op.Operand ≠ "Q")
    (hgs : proc.gsOf resources (done ++ [op]) = .ok gs)
    (hh : h op gs resources ctx = some (.error e ctx1)) :
    Process proc h resources done (op :: rest) ctx = some (.error e ctx1) := by
  simp only [Process, hq, false_and, if_false, hgs, hh]

/-! ## C2: `Q` on an empty stack -/

/-- C2 (as stated, refuted): in `q ET Q` on a fresh context the `ET` has taken the one saved
state off the canvas stack, so the `Q` comes with that stack empty (the processor's own stack
still holds the state of `q`, and the handler is called). The handler returns no error: the
`Pop` call it issues does not return, and the run ends there, after the calls `Push`, `Pop`,
`Pop`. -/
theorem Q_on_empty_stack_returns_no_error :
    renderContentStream (constProcessor (rgbGraphicsState [0, 0, 0])) 1
        (.ok [plainOp "q", plainOp "ET", plainOp "Q"]) emptyResources newRenderContext
      = some (.crash { newRenderContext with calls := [.Push, .Pop, .Pop] }) ∧
    ¬ ∃ e c, renderContentStream (constProcessor (rgbGraphicsState [0, 0, 0])) 1
        (.ok [plainOp "q", plainOp "ET", plainOp "Q"]) emptyResources newRenderContext
      = some (.error e c) := by
  have h2 : renderContentStream (constProcessor (rgbGraphicsState [0, 0, 0])) 1
      (.ok [plainOp "q", plainOp "ET", plainOp "Q"]) emptyResources newRenderContext
        = some (.crash { newRenderContext with calls := [.Push, .Pop, .Pop] }) := by
    rfl
  refine ⟨h2, ?_⟩
  rintro ⟨e, c, h⟩
  rw [h2] at h
  cases h

/-- C2 (amended): on `Q` the handler issues `Pop` and nothing else, and never returns an error.
With a non-empty stack it returns nil and the depth has gone down by one; with an empty stack
the `Pop` call does not return. The depth, a length, is never negative. -/
theorem Q_pops_or_does_not_return
    (rec : ContentStream → PdfPageResources → renderContext → Option Outcome)
    (params : List PdfObject) (gs : GraphicsState) (resources : PdfPageResources)
    (ctx : renderContext) :
    (∃ c, handler rec ⟨"Q", params⟩ gs resources ctx = some (.ok c) ∧ c.depth + 1 = ctx.depth ∧
        c.calls = ctx.calls ++ [.Pop]) ∨
    (ctx.depth = 0 ∧
      handler rec ⟨"Q", params⟩ gs resources ctx =
        some (.crash { ctx with calls := ctx.calls ++ [.Pop] })) := by
  rw [handler_Q]
  cases hs : ctx.dc.stack with
  | nil =>
    right
    simp [renderContext.issue, Context.apply, Context.Pop, hs, renderContext.depth]
  | cons x s =>
    left
    simp [renderContext.issue, Context.apply, Context.Pop, hs, renderContext.depth]

/-! ## C4: the rectangle operator -/

/-- C4: `x y w h re` returns nil after the calls `DrawRectangle(x, -y, w, -h)` and `NewSubPath`;
the path has gained one subpath that starts at the corner `(x, -y)`, runs by straight segments
through `(x+w, -y)`, `(x+w, -y-h)` and `(x, -y-h)` and back to `(x, -y)` (each corner placed by
the current transform of the drawing context), and a new subpath is open. -/
theorem re_appends_closed_rectangle
    (rec : ContentStream → PdfPageResources → renderContext → Option Outcome)
    (gs : GraphicsState) (resources : PdfPageResources) (ctx : renderContext) (x y w h : ℚ) :
    ∃ c, handler rec (reOp x y w h) gs resources ctx = some (.ok c) ∧
      c.calls = ctx.calls ++ [.DrawRectangle x (-y) w (-h), .NewSubPath] ∧
      c.dc.path = ctx.dc.path ++
        [.start (ctx.dc.attrs.matrix.TransformPoint x (-y)),
         .line (ctx.dc.attrs.matrix.TransformPoint (x + w) (-y)),
         .line (ctx.dc.attrs.matrix.TransformPoint (x + w) (-y - h)),
         .line (ctx.dc.attrs.matrix.TransformPoint x (-y - h)),
         .line (ctx.dc.attrs.matrix.TransformPoint x (-y))] ∧
      c.dc.hasCurrent = false := by
  rw [handler_re]
  simp [renderContext.issue, Context.apply, Context.DrawRectangle, Context.NewSubPath,
    Context.MoveTo, Context.LineTo, Context.ClosePath, sub_eq_add_neg]

/-! ## C5: the red triangle -/

/-- C5: from an empty path under the identity transform, with a graphics state whose stroking
colour converts to RGB (1, 0, 0), the operations `10 10 m 100 10 l 100 100 l h S` all return
nil; the calls issued are `NewSubPath`, `MoveTo(10,-10)`, `LineTo(100,-10)`, `LineTo(100,-100)`,
`ClosePath`, the `NewSubPath` that ends `h`, `SetRGBA(1,0,0,alpha)` and `Stroke`; what is
painted is one stroke, in that colour, of the closed triangle through `(10,-10)`, `(100,-10)`
and `(100,-100)`. -/
theorem triangle_is_stroked_red (proc : Processor) (gs : GraphicsState)
    (resources : PdfPageResources) (ctx : renderContext)
    (hgs : ∀ done, proc.gsOf resources done = .ok gs)
    (hred : gs.ColorspaceStroking.ColorToRGB gs.ColorStroking = .ok ⟨1, 0, 0⟩)
    (hpath : ctx.dc.path = []) (hid : ctx.dc.attrs.matrix = .Identity) :
    ∃ c, renderContentStream proc 1 (.ok triangleOps) resources ctx = some (.ok c) ∧
      c.calls = ctx.calls ++
        [.NewSubPath, .MoveTo 10 (-10), .LineTo 100 (-10), .LineTo 100 (-100), .ClosePath,
         .NewSubPath, .SetRGBA 1 0 0 gs.AlphaStroking, .Stroke] ∧
      c.dc.im = ctx.dc.im ++
        [⟨.stroke [.start ⟨10, -10⟩, .line ⟨100, -10⟩, .line ⟨100, -100⟩, .line ⟨10, -10⟩]
            ⟨1, 0, 0, gs.AlphaStroking⟩ ctx.dc.attrs.lineWidth, ctx.dc.mask⟩] := by
  simp [renderContentStream, triangleOps, Process, hgs, plainOp, handler_m_int, handler_l_int,
    handler_h, handler_S, setColor, hred, renderContext.issue, Context.apply, Outcome.andThen,
    Context.NewSubPath, Context.MoveTo, Context.LineTo, Context.ClosePath,
    Context.StrokePreserve, Context.ClearPath, Context.SetRGBA, hpath, hid,
    Matrix.TransformPoint, Matrix.Identity]

/-- The triangle statement at a fresh context with a constant red stroking colour. -/
theorem triangle_is_stroked_red_witness :
    (∀ done, (constProcessor (rgbGraphicsState [1, 0, 0])).gsOf emptyResources done
        = .ok (rgbGraphicsState [1, 0, 0])) ∧
    newRenderContext.dc.path = [] ∧ newRenderContext.dc.attrs.matrix = .Identity ∧
    ∃ c, renderContentStream (constProcessor (rgbGraphicsState [1, 0, 0])) 1 (.ok triangleOps)
        emptyResources newRenderContext = some (.ok c) ∧
      c.calls = newRenderContext.calls ++
        [.NewSubPath, .MoveTo 10 (-10), .LineTo 100 (-10), .LineTo 100 (-100), .ClosePath,
         .NewSubPath, .SetRGBA 1 0 0 (rgbGraphicsState [1, 0, 0]).AlphaStroking, .Stroke] ∧
      c.dc.im = newRenderContext.dc.im ++
        [⟨.stroke [.start ⟨10, -10⟩, .line ⟨100, -10⟩, .line ⟨100, -100⟩, .line ⟨10, -10⟩]
            ⟨1, 0, 0, (rgbGraphicsState [1, 0, 0]).AlphaStroking⟩
            newRenderContext.dc.attrs.lineWidth, newRenderContext.dc.mask⟩] :=
  ⟨fun _ => rfl, rfl, rfl,
    triangle_is_stroked_red _ _ _ _ (fun _ => rfl) rfl rfl rfl⟩

/-! ## C6: operand counts -/

/-- C6: an operator with a fixed operand count, given a list of operands of any other length,
gets the range-check error from the handler, whatever the operands are. -/
theorem wrong_arity_is_errRange (name : String) (n : Nat) (hmem : (name, n) ∈ fixedArity)
    (rec : ContentStream → PdfPageResources → renderContext → Option Outcome)
    (params : List PdfObject) (gs : GraphicsState) (resources : PdfPageResources)
    (ctx : renderContext) (hlen : params.length ≠ n) :
    ∃ c, handler rec ⟨name, params⟩ gs resources ctx = some (.error .errRange c) := by
  simp only [fixedArity, List.mem_cons, Prod.mk.injEq, List.mem_singleton, List.not_mem_nil,
    or_false] at hmem
  rcases hmem with ⟨rfl, rfl⟩ | ⟨rfl, rfl⟩ | ⟨rfl, rfl⟩ | ⟨rfl, rfl⟩ | ⟨rfl, rfl⟩ | ⟨rfl, rfl⟩ |
    ⟨rfl, rfl⟩ | ⟨rfl, rfl⟩ | ⟨rfl, rfl⟩ | ⟨rfl, rfl⟩ | ⟨rfl, rfl⟩ | ⟨rfl, rfl⟩ | ⟨rfl, rfl⟩ |
    ⟨rfl, rfl⟩ | ⟨rfl, rfl⟩ | ⟨rfl, rfl⟩ | ⟨rfl, rfl⟩ | ⟨rfl, rfl⟩ | ⟨rfl, rfl⟩ | ⟨rfl, rfl⟩ |
    ⟨rfl, rfl⟩ | ⟨rfl, rfl⟩
  all_goals first
    | exact ⟨ctx, if_pos hlen⟩
    | exact ⟨{ ctx with dc := ctx.dc.MoveTo 0 10, calls := ctx.calls ++ [.MoveTo 0 10] },
        congrArg some (if_pos hlen)⟩

/-- The operand-count statement at `1 m`, one operand where `m` requires two. -/
theorem wrong_arity_is_errRange_witness :
    ("m", 2) ∈ fixedArity ∧ [PdfObject.integer 1].length ≠ 2 ∧
    ∃ c, handler (fun _ _ _ => none) ⟨"m", [.integer 1]⟩ (rgbGraphicsState [0, 0, 0])
      emptyResources newRenderContext = some (.error .errRange c) :=
  ⟨by decide, by decide, wrong_arity_is_errRange "m" 2 (by decide) _ _ _ _ _ (by decide)⟩

/-! ## C7 and C8: `v` and `s` -/

/-- C7 (the code at the failing input): after `5 5 m`, whose current point is `(5, -5)`, the
operation `1 2 3 4 v` issues `CubicTo(0, 0, 1, -2, 3, -4)`: the first control point of the
curve added to the path is the origin, not the current point. -/
theorem v_first_control_point_is_origin :
    (renderContentStream (constProcessor (rgbGraphicsState [0, 0, 0])) 1
        (.ok [mOp 5 5, vOp 1 2 3 4]) emptyResources newRenderContext).map
      (fun r => (r.ctx.calls, r.ctx.dc.path))
    = some ([.NewSubPath, .MoveTo 5 (-5), .CubicTo 0 0 1 (-2) 3 (-4)],
        [.start ⟨5, -5⟩, .cubic ⟨0, 0⟩ ⟨1, -2⟩ ⟨3, -4⟩]) := by
  simp [renderContentStream, Process, constProcessor, handler_m, handler_v,
    renderContext.issue, Context.apply, Context.NewSubPath, Context.MoveTo, Context.CubicTo,
    newRenderContext, NewContext, Matrix.TransformPoint, Matrix.Identity, Outcome.ctx]

/-- C8 (the code at the failing input): with a subpath of two segments open, `s` issues only
`SetRGBA` and `Stroke`, no `ClosePath`, and the path it strokes is the open one; the run is the
same as with `S`, whereas `h S` strokes the closed path. -/
theorem s_strokes_without_closing :
    (renderContentStream (constProcessor (rgbGraphicsState [1, 0, 0])) 1
        (.ok (openPathOps ++ [plainOp "s"])) emptyResources newRenderContext).map
      (fun r => (r.ctx.calls, r.ctx.dc.im))
    = some ([.NewSubPath, .MoveTo 10 (-10), .LineTo 100 (-10), .LineTo 100 (-100),
          .SetRGBA 1 0 0 1, .Stroke],
        [⟨.stroke [.start ⟨10, -10⟩, .line ⟨100, -10⟩, .line ⟨100, -100⟩] ⟨1, 0, 0, 1⟩ 1,
          []⟩]) ∧
    renderContentStream (constProcessor (rgbGraphicsState [1, 0, 0])) 1
        (.ok (openPathOps ++ [plainOp "s"])) emptyResources newRenderContext
      = renderContentStream (constProcessor (rgbGraphicsState [1, 0, 0])) 1
        (.ok (openPathOps ++ [plainOp "S"])) emptyResources newRenderContext ∧
    (renderContentStream (constProcessor (rgbGraphicsState [1, 0, 0])) 1
        (.ok (openPathOps ++ [plainOp "h", plainOp "S"])) emptyResources newRenderContext).map
      (fun r => (r.ctx.calls, r.ctx.dc.im))
    = some ([.NewSubPath, .MoveTo 10 (-10), .LineTo 100 (-10), .LineTo 100 (-100),
          .ClosePath, .NewSubPath, .SetRGBA 1 0 0 1, .Stroke],
        [⟨.stroke [.start ⟨10, -10⟩, .line ⟨100, -10⟩, .line ⟨100, -100⟩, .line ⟨10, -10⟩]
          ⟨1, 0, 0, 1⟩ 1, []⟩]) := by
  refine ⟨?_, ?_, ?_⟩ <;>
  simp [renderContentStream, Process, constProcessor, openPathOps, plainOp, handler_m_int,
    handler_l_int, handler_h, handler_S, handler_s, setColor, rgbGraphicsState, DeviceRGB,
    renderContext.issue, Context.apply, Outcome.andThen, Context.NewSubPath, Context.MoveTo,
    Context.LineTo, Context.ClosePath, Context.StrokePreserve, Context.ClearPath,
    Context.SetRGBA, newRenderContext, NewContext, Matrix.TransformPoint, Matrix.Identity,
    Outcome.ctx]

/-! ## C10: names absent from the resources -/

/-- C10 (as stated, refuted): `/G gs` with no `G` among the resources makes the handler return
an error, and the run ends with that error before the next operation is handled. -/
theorem absent_ExtGState_stops_the_run :
    renderContentStream (constProcessor (rgbGraphicsState [0, 0, 0])) 1
        (.ok [⟨"gs", [.name "G"]⟩, mOp 5 5]) emptyResources newRenderContext
      = some (.error .resourceNotFound newRenderContext) := by
  rfl

/-- C10 (amended): `Do` with a name absent from the XObjects is passed over (nil is returned,
the context is untouched and the run goes on with the rest of the stream); `gs` with a name
absent from the extended graphics states and `Tf` with a name absent from the fonts return an
error (resource not found, font not found) and the run ends with it. -/
theorem absent_resource_outcomes (proc : Processor) (fuel : Nat) (gs : GraphicsState)
    (resources : PdfPageResources) (ctx : renderContext)
    (xname gname fname : String) (size : ℚ) (rest : List ContentStreamOperation)
    (hgs : ∀ op, proc.gsOf resources [op] = .ok gs)
    (hx : resources.GetXObjectByName xname = none)
    (hg : resources.GetExtGState gname = none)
    (hf : resources.GetFontByName fname = none) :
    renderContentStream proc (fuel + 1) (.ok (doOp xname :: rest)) resources ctx
      = Process proc (handler (renderContentStream proc fuel)) resources [doOp xname] rest ctx ∧
    renderContentStream proc (fuel + 1) (.ok (⟨"gs", [.name gname]⟩ :: rest)) resources ctx
      = some (.error .resourceNotFound ctx) ∧
    renderContentStream proc (fuel + 1) (.ok (⟨"Tf", [.name fname, .float size]⟩ :: rest))
        resources ctx
      = some (.error .fontNotFound ctx) := by
  refine ⟨?_, ?_, ?_⟩
  · exact Process_cons_ok proc _ resources [] rest _ ctx ctx gs (by simp) (hgs _)
      (by rw [handler_Do, doXObject, hx])
  · exact Process_cons_error proc _ resources [] rest _ ctx ctx gs _ (by simp) (hgs _)
      (by rw [handler_gs, hg])
  · exact Process_cons_error proc _ resources [] rest _ ctx ctx gs _ (by simp) (hgs _)
      (by rw [handler_Tf, hf])

/-- The statement on absent names at the empty resource scope. -/
theorem absent_resource_outcomes_witness :
    (∀ op, (constProcessor (rgbGraphicsState [0, 0, 0])).gsOf emptyResources [op]
        = .ok (rgbGraphicsState [0, 0, 0])) ∧
    emptyResources.GetXObjectByName "X" = none ∧ emptyResources.GetExtGState "G" = none ∧
    emptyResources.GetFontByName "F" = none ∧
    (renderContentStream (constProcessor (rgbGraphicsState [0, 0, 0])) 1
        (.ok (doOp "X" :: [mOp 5 5])) emptyResources newRenderContext
      = Process (constProcessor (rgbGraphicsState [0, 0, 0]))
          (handler (renderContentStream (constProcessor (rgbGraphicsState [0, 0, 0])) 0))
          emptyResources [doOp "X"] [mOp 5 5] newRenderContext ∧
    renderContentStream (constProcessor (rgbGraphicsState [0, 0, 0])) 1
        (.ok (⟨"gs", [.name "G"]⟩ :: [mOp 5 5])) emptyResources newRenderContext
      = some (.error .resourceNotFound newRenderContext) ∧
    renderContentStream (constProcessor (rgbGraphicsState [0, 0, 0])) 1
        (.ok (⟨"Tf", [.name "F", .float 12]⟩ :: [mOp 5 5])) emptyResources newRenderContext
      = some (.error .fontNotFound newRenderContext)) :=
  ⟨fun _ => rfl, rfl, rfl, rfl,
    absent_resource_outcomes _ 0 _ _ _ "X" "G" "F" 12 [mOp 5 5] (fun _ => rfl) rfl rfl rfl⟩

/-! ## C3: two `cm` against one -/


/-- C3 (as stated, refuted): with the matrix `0 1 -1 0 5 7` taken twice (so that neither the
order of the product nor the order of concatenation matters), `cm cm` followed by `1 2 m` puts
the point at `(11, 0)`, and one `cm` with the coefficients of the product followed by `1 2 m`
puts it at `(-3, -10)`. -/
theorem cm_twice_differs_from_product :
    (renderContentStream (constProcessor (rgbGraphicsState [0, 0, 0])) 1
        (.ok [cmOp quarterTurnShift, cmOp quarterTurnShift, mOp 1 2]) emptyResources
        newRenderContext).map (fun r => r.ctx.dc.current) = some ⟨11, 0⟩ ∧
    (renderContentStream (constProcessor (rgbGraphicsState [0, 0, 0])) 1
        (.ok [cmOp (quarterTurnShift.Multiply quarterTurnShift), mOp 1 2]) emptyResources
        newRenderContext).map (fun r => r.ctx.dc.current) = some ⟨-3, -10⟩ := by
  constructor <;>
  simp [renderContentStream, Process, constProcessor, handler_m, handler_cm,
    renderContext.issue, Context.apply, Context.NewSubPath, Context.MoveTo, Context.ConcatMatrix,
    newRenderContext, NewContext, Matrix.TransformPoint, Matrix.Identity, Outcome.ctx,
    Outcome.andThen, quarterTurnShift, Matrix.Multiply] <;> norm_num

/-- C3 (amended): when one of `M1`, `M2` is the identity, `cm` with `M1`, then `cm` with `M2`,
then `x y m` puts the point where one `cm` with the coefficients of the product followed by
`x y m` puts it, and leaves the same canvas matrix. Only products with 1 and 0 and sums with 0
are involved, which the program's arithmetic carries out without rounding, and neither the
side on which the canvas multiplies nor the order of the product matters: the last two parts
are the same equality of matrices with the canvas multiplying on the other side, and the
equality of the two products. -/
theorem cm_with_identity_as_product (proc : Processor) (resources : PdfPageResources)
    (ctx : renderContext) (M1 M2 : Matrix) (x y : ℚ)
    (hg1 : ∃ gs, proc.gsOf resources [cmOp M1] = .ok gs)
    (hg2 : ∃ gs, proc.gsOf resources [cmOp M1, cmOp M2] = .ok gs)
    (hg3 : ∃ gs, proc.gsOf resources [cmOp M1, cmOp M2, mOp x y] = .ok gs)
    (hg4 : ∃ gs, proc.gsOf resources [cmOp (M2.Multiply M1)] = .ok gs)
    (hg5 : ∃ gs, proc.gsOf resources [cmOp (M2.Multiply M1), mOp x y] = .ok gs)
    (hid : M1 = Matrix.Identity ∨ M2 = Matrix.Identity) :
    ∃ c1 c2,
      renderContentStream proc 1 (.ok [cmOp M1, cmOp M2, mOp x y]) resources ctx = some (.ok c1) ∧
      renderContentStream proc 1 (.ok [cmOp (M2.Multiply M1), mOp x y]) resources ctx
        = some (.ok c2) ∧
      c1.dc.current = c2.dc.current ∧
      c1.dc.attrs.matrix = c2.dc.attrs.matrix ∧
      (ctx.dc.attrs.matrix.Multiply (canvasMatrix M1)).Multiply (canvasMatrix M2)
        = ctx.dc.attrs.matrix.Multiply (canvasMatrix (M2.Multiply M1)) ∧
      M2.Multiply M1 = M1.Multiply M2 := by
  obtain ⟨g1, hg1⟩ := hg1
  obtain ⟨g2, hg2⟩ := hg2
  obtain ⟨g3, hg3⟩ := hg3
  obtain ⟨g4, hg4⟩ := hg4
  obtain ⟨g5, hg5⟩ := hg5
  simp only [renderContentStream, Process, countOp, cmOp_Operand, mOp_Operand,
    List.nil_append, List.cons_append, hg1, hg2, hg3, hg4, hg5, handler_m, handler_cm,
    renderContext.issue, Context.apply, Outcome.andThen]
  simp only [String.reduceEq, false_and, if_false]
  refine ⟨_, _, rfl, rfl, ?_⟩
  rcases hid with h | h <;> subst h <;>
    simp [Context.NewSubPath, Context.MoveTo, Context.ConcatMatrix, Matrix.TransformPoint,
      Matrix.Multiply, Matrix.Identity, canvasMatrix]

/-- The composition statement with the identity as first matrix and a quarter turn with a
shift as second. -/
theorem cm_with_identity_as_product_witness :
    (∃ gs, (constProcessor (rgbGraphicsState [0, 0, 0])).gsOf emptyResources
        [cmOp Matrix.Identity] = .ok gs) ∧
    (∃ gs, (constProcessor (rgbGraphicsState [0, 0, 0])).gsOf emptyResources
        [cmOp Matrix.Identity, cmOp quarterTurnShift] = .ok gs) ∧
    (∃ gs, (constProcessor (rgbGraphicsState [0, 0, 0])).gsOf emptyResources
        [cmOp Matrix.Identity, cmOp quarterTurnShift, mOp 1 2] = .ok gs) ∧
    (∃ gs, (constProcessor (rgbGraphicsState [0, 0, 0])).gsOf emptyResources
        [cmOp (quarterTurnShift.Multiply Matrix.Identity)] = .ok gs) ∧
    (∃ gs, (constProcessor (rgbGraphicsState [0, 0, 0])).gsOf emptyResources
        [cmOp (quarterTurnShift.Multiply Matrix.Identity), mOp 1 2] = .ok gs) ∧
    (Matrix.Identity = Matrix.Identity ∨ quarterTurnShift = Matrix.Identity) ∧
    ∃ c1 c2,
      renderContentStream (constProcessor (rgbGraphicsState [0, 0, 0])) 1
          (.ok [cmOp Matrix.Identity, cmOp quarterTurnShift, mOp 1 2]) emptyResources
          newRenderContext = some (.ok c1) ∧
      renderContentStream (constProcessor (rgbGraphicsState [0, 0, 0])) 1
          (.ok [cmOp (quarterTurnShift.Multiply Matrix.Identity), mOp 1 2]) emptyResources
          newRenderContext = some (.ok c2) ∧
      c1.dc.current = c2.dc.current ∧
      c1.dc.attrs.matrix = c2.dc.attrs.matrix ∧
      (newRenderContext.dc.attrs.matrix.Multiply (canvasMatrix Matrix.Identity)).Multiply
          (canvasMatrix quarterTurnShift)
        = newRenderContext.dc.attrs.matrix.Multiply
          (canvasMatrix (quarterTurnShift.Multiply Matrix.Identity)) ∧
      quarterTurnShift.Multiply Matrix.Identity = Matrix.Identity.Multiply quarterTurnShift :=
  ⟨⟨_, rfl⟩, ⟨_, rfl⟩, ⟨_, rfl⟩, ⟨_, rfl⟩, ⟨_, rfl⟩, Or.inl rfl,
    cm_with_identity_as_product _ _ _ _ _ 1 2 ⟨_, rfl⟩ ⟨_, rfl⟩ ⟨_, rfl⟩ ⟨_, rfl⟩ ⟨_, rfl⟩
      (Or.inl rfl)⟩

/-! ## C9: forms that invoke themselves -/

theorem render_selfReferencing (fuel : Nat) :
    ∀ ctx : renderContext,
      renderContentStream (constProcessor (rgbGraphicsState [0, 0, 0])) fuel (.ok [doOp "F"])
        selfReferencing ctx = none := by
  induction fuel with
  | zero => intro ctx; rfl
  | succ n ih =>
    intro ctx
    simp [renderContentStream, Process, constProcessor, handler_Do, doXObject, selfReferencing,
      PdfPageResources.GetXObjectByName, plainForm, XObjectForm.content, XObjectForm.Resources,
      formMatrix, formBBox, XObjectForm.Matrix, XObjectForm.BBox, renderContext.issue,
      Context.apply, Outcome.andThen, Outcome.andThenRun]
    have := ih { ctx with dc := ctx.dc.Push, calls := ctx.calls ++ [.Push] }
    simp [selfReferencing, plainForm, constProcessor] at this
    simp [this]

/-- C9 (as stated, refuted): the form `F` has the content stream `/F Do` and no resources of
its own, so the nested interpretation finds `F` again; interpreting `/F Do` returns for no
bound on the nesting: every level starts the next one. -/
theorem self_referencing_form_never_returns :
    ¬ ∃ fuel r, renderContentStream (constProcessor (rgbGraphicsState [0, 0, 0])) fuel
        (.ok [doOp "F"]) selfReferencing newRenderContext = some r := by
  rintro ⟨fuel, r, h⟩
  rw [render_selfReferencing] at h
  cases h

theorem doXObject_isSome
    (rec : ContentStream → PdfPageResources → renderContext → Option Outcome)
    (resources : PdfPageResources) (name : String) (ctx : renderContext)
    (hrec : ∀ xform formContent, resources.GetXObjectByName name = some (.form (.ok xform)) →
      xform.content = .ok formContent →
      ∀ c, (rec formContent (match xform.Resources with | none => resources | some r => r)
        c).isSome) :
    (doXObject rec resources name ctx).isSome := by
  unfold doXObject
  split
  · split <;> rfl
  · rename_i fetched hlook
    split
    · rfl
    · rename_i xform
      split
      · rfl
      · rename_i formContent hcontent
        cases hpre : ((ctx.issue [.Push]).andThen (formMatrix xform)).andThen (formBBox xform) with
        | ok c =>
          simp only [Outcome.andThenRun, Option.isSome_map']
          exact hrec xform formContent hlook hcontent c
        | error e c => rfl
        | crash c => rfl
  · rfl

theorem handler_eq_Do
    (rec : ContentStream → PdfPageResources → renderContext → Option Outcome)
    (op : ContentStreamOperation) (gs : GraphicsState) (resources : PdfPageResources)
    (ctx : renderContext) (hop : op.Operand = "Do") :
    handler rec op gs resources ctx =
      (if op.Params.length ≠ 1 then some (.error .errRange ctx) else
        match GetName (op.Params.getD 0 .null) with
        | none => some (.error .errType ctx)
        | some name => doXObject rec resources name ctx) := by
  cases op
  subst hop
  rfl

theorem handler_isSome
    (rec : ContentStream → PdfPageResources → renderContext → Option Outcome)
    (op : ContentStreamOperation) (gs : GraphicsState) (resources : PdfPageResources)
    (ctx : renderContext)
    (hrec : ∀ content r, doForm op resources = some (content, r) →
      ∀ c, (rec content r c).isSome) :
    (handler rec op gs resources ctx).isSome := by
  by_cases hop : op.Operand = "Do"
  · rw [handler_eq_Do rec op gs resources ctx hop]
    split
    · rfl
    · rename_i hlen
      split
      · rfl
      · rename_i name hname
        apply doXObject_isSome
        intro xform formContent hlook hcontent c
        apply hrec
        simp only [ne_eq, Decidable.not_not] at hlen
        unfold doForm
        rw [if_pos ⟨hop, hlen⟩]
        simp only [hname, hlook, hcontent]
  · unfold handler
    split
    all_goals first
      | rfl
      | exact absurd (by assumption) hop
      | (repeat' split) <;> rfl

theorem Process_isSome (proc : Processor)
    (h : ContentStreamOperation → GraphicsState → PdfPageResources → renderContext →
      Option Outcome)
    (resources : PdfPageResources) (ops : List ContentStreamOperation)
    (hh : ∀ op ∈ ops, ∀ gs c, (h op gs resources c).isSome) :
    ∀ done ctx, (Process proc h resources done ops ctx).isSome := by
  induction ops with
  | nil => intro done ctx; rfl
  | cons op rest ih =>
    intro done ctx
    simp only [Process]
    split
    · rfl
    · split
      · rfl
      · rename_i gs hgs
        have hop := hh op (List.mem_cons_self _ _) gs ctx
        split
        · exact ih (fun o ho => hh o (List.mem_cons_of_mem _ ho)) _ _
        · exact hop

theorem render_isSome_of_nestsWithin (proc : Processor) (n : Nat) :
    ∀ (resources : PdfPageResources) (ops : List ContentStreamOperation) (ctx : renderContext),
      nestsWithin n resources ops = true →
      ∃ r, renderContentStream proc (n + 1) (.ok ops) resources ctx = some r := by
  induction n with
  | zero =>
    intro resources ops ctx hn
    rw [← Option.isSome_iff_exists]
    simp only [nestsWithin, List.all_eq_true, Option.isNone_iff_eq_none] at hn
    apply Process_isSome
    intro op hop gs c
    apply handler_isSome
    intro content r hdo
    rw [hn op hop] at hdo
    cases hdo
  | succ n ih =>
    intro resources ops ctx hn
    rw [← Option.isSome_iff_exists]
    simp only [nestsWithin, List.all_eq_true] at hn
    apply Process_isSome
    intro op hop gs c
    apply handler_isSome
    intro content r hdo c2
    have := hn op hop
    rw [hdo] at this
    cases content with
    | error e => rfl
    | ok formOps =>
      rw [Option.isSome_iff_exists]
      exact ih r formOps c2 this

/-- C9 (amended): the dispatcher keeps no record of the forms being interpreted; `Do` on a form
always interprets the form's stream. When forms nest at most `n` deep below a stream, the
interpretation of the stream returns (with a result or an error) within `n + 1` levels. -/
theorem bounded_nesting_terminates (proc : Processor) (n : Nat) (resources : PdfPageResources)
    (ops : List ContentStreamOperation) (ctx : renderContext)
    (hn : nestsWithin n resources ops = true) :
    ∃ r, renderContentStream proc (n + 1) (.ok ops) resources ctx = some r :=
  render_isSome_of_nestsWithin proc n resources ops ctx hn

/-- The termination statement at a stream that invokes a form holding no `Do`. -/
theorem bounded_nesting_terminates_witness :
    nestsWithin 1 textForm [doOp "F"] = true ∧
    ∃ r, renderContentStream (constProcessor (rgbGraphicsState [0, 0, 0])) 2 (.ok [doOp "F"])
      textForm newRenderContext = some r :=
  ⟨by decide, bounded_nesting_terminates _ 1 textForm [doOp "F"] newRenderContext (by decide)⟩


/-! ## C1: saved states -/

theorem Run.refl (ctx : renderContext) : Run ctx ctx 0 0 :=
  ⟨[], by simp, rfl, rfl⟩

theorem Run.trans {x y z : renderContext} {a b a2 b2 : Nat}
    (h1 : Run x y a b) (h2 : Run y z a2 b2) : Run x z (a + a2) (b + b2) := by
  obtain ⟨cs1, hc1, hp1, hd1⟩ := h1
  obtain ⟨cs2, hc2, hp2, hd2⟩ := h2
  refine ⟨cs1 ++ cs2, by rw [hc2, hc1, List.append_assoc], ?_, by omega⟩
  simp only [pushCount, popCount, List.count_append] at *
  omega

theorem Run.cancel {x y : renderContext} {a b : Nat} (h : Run x y (a + 1) (b + 1)) :
    Run x y a b := by
  obtain ⟨cs, hc, hp, hd⟩ := h
  exact ⟨cs, hc, by omega, by omega⟩

theorem stack_MoveTo (dc : Context) (x y : ℚ) : (dc.MoveTo x y).stack = dc.stack := rfl

theorem stack_LineTo (dc : Context) (x y : ℚ) : (dc.LineTo x y).stack = dc.stack := by
  unfold Context.LineTo
  split <;> rfl

theorem stack_CubicTo (dc : Context) (x1 y1 x2 y2 x3 y3 : ℚ) :
    (dc.CubicTo x1 y1 x2 y2 x3 y3).stack = dc.stack := by
  unfold Context.CubicTo
  by_cases h : dc.hasCurrent = true <;> simp [h, Context.MoveTo]

theorem stack_ClosePath (dc : Context) : dc.ClosePath.stack = dc.stack := by
  unfold Context.ClosePath
  split <;> rfl

theorem stack_DrawRectangle (dc : Context) (x y w h : ℚ) :
    (dc.DrawRectangle x y w h).stack = dc.stack := by
  simp [Context.DrawRectangle, stack_ClosePath, stack_LineTo, stack_MoveTo, Context.NewSubPath]

theorem apply_depth (dc dc2 : Context) (c : Call) (h : dc.apply c = some dc2) :
    dc2.stack.length + popCount [c] = dc.stack.length + pushCount [c] := by
  cases c
  case Pop =>
    simp only [Context.apply, Context.Pop] at h
    split at h
    · cases h
    · rename_i x s hs
      cases h
      simp [hs, pushCount, popCount]
  all_goals
    simp only [Context.apply, Option.some.injEq] at h
    subst h
    simp [pushCount, popCount, stack_MoveTo, stack_LineTo, stack_CubicTo, stack_ClosePath,
      stack_DrawRectangle, Context.Push, Context.NewSubPath, Context.ClearPath, Context.SetRGBA,
      Context.StrokePreserve, Context.FillPreserve, Context.ClipPreserve, Context.ConcatMatrix,
      Context.Scale]

theorem issue_run (cs : List Call) :
    ∀ ctx c : renderContext, ctx.issue cs = .ok c →
      c.calls = ctx.calls ++ cs ∧ c.depth + popCount cs = ctx.depth + pushCount cs := by
  induction cs with
  | nil =>
    intro ctx c h
    simp only [renderContext.issue, Outcome.ok.injEq] at h
    subst h
    simp [pushCount, popCount]
  | cons k ks ih =>
    intro ctx c h
    simp only [renderContext.issue] at h
    split at h
    · rename_i dc hdc
      obtain ⟨h1, h2⟩ := ih _ c h
      have h3 := apply_depth _ _ _ hdc
      refine ⟨by simp [h1], ?_⟩
      simp only [renderContext.depth, pushCount, popCount, List.count_cons, List.count_nil] at *
      omega
    · cases h

theorem OkRun_issue (ctx : renderContext) (cs : List Call) (a b : Nat)
    (h : pushCount cs + b = popCount cs + a) : OkRun ctx a b (ctx.issue cs) := by
  intro c hc
  obtain ⟨h1, h2⟩ := issue_run cs ctx c hc
  exact ⟨cs, h1, h, by omega⟩

theorem OkRun_ok (ctx : renderContext) : OkRun ctx 0 0 (.ok ctx) := by
  intro c hc
  cases hc
  exact Run.refl _

theorem OkRun_error (ctx c : renderContext) (e : Err) (a b : Nat) : OkRun ctx a b (.error e c) := by
  intro c hc
  cases hc

theorem OkRun_crash (ctx c : renderContext) (a b : Nat) : OkRun ctx a b (.crash c) := by
  intro c hc
  cases hc

theorem OkRun_andThen (ctx : renderContext) (r : Outcome) (k : renderContext → Outcome)
    (a b : Nat) (h1 : OkRun ctx 0 0 r) (h2 : ∀ c, OkRun c a b (k c)) :
    OkRun ctx a b (r.andThen k) := by
  intro c hc
  cases r with
  | ok c1 =>
    have := (h1 c1 rfl).trans (h2 c1 c hc)
    simpa using this
  | error e c1 => cases hc
  | crash c1 => cases hc

theorem OkRun_setColor (cs : PdfColorspace) (color : List ℚ) (alpha : ℚ) (ctx : renderContext) :
    OkRun ctx 0 0 (setColor cs color alpha ctx) := by
  unfold setColor
  split
  · exact OkRun_error _ _ _ _ _
  · exact OkRun_issue _ _ _ _ (by simp [pushCount, popCount])

theorem count_tjCalls (elements : List PdfObject) :
    pushCount (tjCalls elements) = 0 ∧ popCount (tjCalls elements) = 0 := by
  induction elements with
  | nil => simp [tjCalls, pushCount, popCount]
  | cons o os ih =>
    cases o <;> simpa [tjCalls, pushCount, popCount] using ih

theorem OkRun_formMatrix (xform : XObjectForm) (ctx : renderContext) :
    OkRun ctx 0 0 (formMatrix xform ctx) := by
  unfold formMatrix
  repeat' split
  all_goals first
    | exact OkRun_error _ _ _ _ _
    | exact OkRun_ok _
    | exact OkRun_issue _ _ _ _ (by simp [pushCount, popCount])

theorem OkRun_formBBox (xform : XObjectForm) (ctx : renderContext) :
    OkRun ctx 0 0 (formBBox xform ctx) := by
  unfold formBBox
  repeat' split
  all_goals first
    | exact OkRun_error _ _ _ _ _
    | exact OkRun_ok _
    | exact OkRun_issue _ _ _ _ (by simp [pushCount, popCount])

theorem OkRun_drawImage (goImg : GoImage) (ctx : renderContext) :
    OkRun ctx 0 0 (drawImage goImg ctx) :=
  OkRun_issue _ _ _ _ (by simp [pushCount, popCount])

theorem OkRun_loadFont (font : FontResource) (fsize : ℚ) (ctx : renderContext) :
    OkRun ctx 0 0 (loadFont font fsize ctx) := by
  unfold loadFont
  repeat' split
  all_goals first
    | exact OkRun_error _ _ _ _ _
    | exact OkRun_ok _
    | exact OkRun_issue { ctx with fface := _ } _ _ _ (by simp [pushCount, popCount])



theorem OkRunO_some (ctx : renderContext) (a b : Nat) (r : Outcome) (h : OkRun ctx a b r) :
    OkRunO ctx a b (some r) := by
  intro r2 hr
  cases hr
  exact h

theorem handler_run_plain
    (rec : ContentStream → PdfPageResources → renderContext → Option Outcome)
    (op : ContentStreamOperation) (gs : GraphicsState) (resources : PdfPageResources)
    (ctx : renderContext) (hop : op.Operand ≠ "Do") :
    OkRunO ctx (opens [op]) (closes [op]) (handler rec op gs resources ctx) := by
  unfold handler
  split
  all_goals first
    | exact absurd (by assumption) hop
    | skip
  all_goals
    first
    | (have e : opens [op] = 1 ∧ closes [op] = 0 := by
        simp [opens, closes, countOp, List.countP_cons, *]
       rw [e.1, e.2])
    | (have e : opens [op] = 0 ∧ closes [op] = 1 := by
        simp [opens, closes, countOp, List.countP_cons, *]
       rw [e.1, e.2])
    | (have e : opens [op] = 0 ∧ closes [op] = 0 := by
        first
        | (simp [opens, closes, countOp, List.countP_cons, *]; done)
        | (have h1 : op.Operand ≠ "q" := by assumption
           have h2 : op.Operand ≠ "Q" := by assumption
           have h3 : op.Operand ≠ "BT" := by assumption
           have h4 : op.Operand ≠ "ET" := by assumption
           simp [opens, closes, countOp, List.countP_cons, h1, h2, h3, h4])
       rw [e.1, e.2])
  all_goals try (repeat' split)
  all_goals apply OkRunO_some
  all_goals try (refine OkRun_andThen _ _ _ _ _ ?_ (fun c => ?_))
  all_goals try (refine OkRun_andThen _ _ _ _ _ ?_ (fun c => ?_))
  all_goals first
      | exact OkRun_error _ _ _ _ _
      | exact OkRun_ok _
      | exact OkRun_setColor _ _ _ _
      | exact OkRun_drawImage _ _
      | exact OkRun_loadFont _ _ _
      | (refine OkRun_issue _ _ _ _ ?_
         rw [(count_tjCalls _).1, (count_tjCalls _).2])
      | (refine OkRun_issue _ _ _ _ ?_
         simp [pushCount, popCount])


theorem OkRun_andThen_neutral (ctx : renderContext) (r : Outcome) (k : renderContext → Outcome)
    (a b : Nat) (h1 : OkRun ctx a b r) (h2 : ∀ c, OkRun c 0 0 (k c)) :
    OkRun ctx a b (r.andThen k) := by
  intro c hc
  cases r with
  | ok c1 => exact (h1 c1 rfl).trans (h2 c1 c hc)
  | error e c1 => cases hc
  | crash c1 => cases hc

theorem doForm_of_ne (op : ContentStreamOperation) (resources : PdfPageResources)
    (hop : op.Operand ≠ "Do") : doForm op resources = none := by
  unfold doForm
  rw [if_neg (fun h => hop h.1)]

theorem handled_single (n : Nat) (resources : PdfPageResources) (op : ContentStreamOperation) :
    handled (n + 1) resources [op] =
      op :: (match doForm op resources with
        | some (.ok formOps, formResources) => handled n formResources formOps
        | _ => []) := by
  simp [handled]

theorem handled_cons (n : Nat) (resources : PdfPageResources) (op : ContentStreamOperation)
    (rest : List ContentStreamOperation) :
    handled (n + 1) resources (op :: rest) =
      handled (n + 1) resources [op] ++ handled (n + 1) resources rest := by
  simp [handled]

theorem opens_cons (op : ContentStreamOperation) (l : List ContentStreamOperation) :
    opens (op :: l) = opens [op] + opens l := by
  simp only [opens, countOp, List.countP_cons, List.countP_nil]
  omega

theorem closes_cons (op : ContentStreamOperation) (l : List ContentStreamOperation) :
    closes (op :: l) = closes [op] + closes l := by
  simp only [closes, countOp, List.countP_cons, List.countP_nil]
  omega

theorem opens_append (l1 l2 : List ContentStreamOperation) :
    opens (l1 ++ l2) = opens l1 + opens l2 := by
  simp only [opens, countOp, List.countP_append]
  omega

theorem closes_append (l1 l2 : List ContentStreamOperation) :
    closes (l1 ++ l2) = closes l1 + closes l2 := by
  simp only [closes, countOp, List.countP_append]
  omega

theorem opens_closes_Do (op : ContentStreamOperation) (hop : op.Operand = "Do") :
    opens [op] = 0 ∧ closes [op] = 0 := by
  simp [opens, closes, countOp, List.countP_cons, hop]

theorem handler_run (proc : Processor) (n : Nat)
    (ih : ∀ resources ops ctx c,
      renderContentStream proc n (.ok ops) resources ctx = some (.ok c) →
      Run ctx c (opens (handled n resources ops)) (closes (handled n resources ops)))
    (op : ContentStreamOperation) (gs : GraphicsState) (resources : PdfPageResources)
    (ctx : renderContext) :
    OkRunO ctx (opens (handled (n + 1) resources [op])) (closes (handled (n + 1) resources [op]))
      (handler (renderContentStream proc n) op gs resources ctx) := by
  by_cases hop : op.Operand = "Do"
  · rw [handler_eq_Do _ op gs resources ctx hop, handled_single, opens_cons, closes_cons,
      (opens_closes_Do op hop).1, (opens_closes_Do op hop).2, Nat.zero_add, Nat.zero_add]
    by_cases hlen : op.Params.length = 1
    · rw [if_neg (not_not.mpr hlen)]
      unfold doForm
      rw [if_pos ⟨hop, hlen⟩]
      cases hname : GetName (op.Params.getD 0 .null) with
      | none => exact OkRunO_some _ _ _ _ (OkRun_error _ _ _ _ _)
      | some name =>
        simp only []
        unfold doXObject
        cases hlook : resources.GetXObjectByName name with
        | none => exact OkRunO_some _ _ _ _ (OkRun_ok _)
        | some x =>
          cases x with
          | image decoded =>
            cases decoded with
            | error e => exact OkRunO_some _ _ _ _ (OkRun_error _ _ _ _ _)
            | ok goImg => exact OkRunO_some _ _ _ _ (OkRun_drawImage _ _)
          | form fetched =>
            cases fetched with
            | error e => exact OkRunO_some _ _ _ _ (OkRun_error _ _ _ _ _)
            | ok xform =>
              simp only []
              cases hcontent : xform.content with
              | error e => exact OkRunO_some _ _ _ _ (OkRun_error _ _ _ _ _)
              | ok formContent =>
                simp only []
                have hpre : OkRun ctx 1 0
                    (((ctx.issue [.Push]).andThen (formMatrix xform)).andThen (formBBox xform)) :=
                  OkRun_andThen_neutral _ _ _ _ _
                    (OkRun_andThen_neutral _ _ _ _ _
                      (OkRun_issue _ _ _ _ (by simp [pushCount, popCount]))
                      (fun c => OkRun_formMatrix xform c))
                    (fun c => OkRun_formBBox xform c)
                intro r hr c hc
                subst hc
                cases hp : ((ctx.issue [.Push]).andThen (formMatrix xform)).andThen
                    (formBBox xform) with
                | error e c1 => rw [hp] at hr; cases hr
                | crash c1 => rw [hp] at hr; cases hr
                | ok c1 =>
                  rw [hp] at hr hpre
                  have h1 := hpre c1 rfl
                  simp only [Outcome.andThenRun, Option.map_eq_some'] at hr
                  obtain ⟨r0, hr0, hr1⟩ := hr
                  cases r0 with
                  | error e c2 => cases hr1
                  | crash c2 => cases hr1
                  | ok c2 =>
                    simp only [Outcome.andThen] at hr1
                    have h3 : Run c2 c 0 1 :=
                      OkRun_issue c2 [.Pop] 0 1 (by simp [pushCount, popCount]) c hr1
                    cases formContent with
                    | error e =>
                      cases n with
                      | zero => cases hr0
                      | succ m => cases hr0
                    | ok formOps =>
                      have h2 := ih _ formOps c1 c2 hr0
                      have := (h1.trans h2).trans h3
                      apply Run.cancel
                      simpa [Nat.add_comm, Nat.add_left_comm] using this
    · rw [if_pos hlen]
      exact OkRunO_some _ _ _ _ (OkRun_error _ _ _ _ _)
  · rw [handled_single, doForm_of_ne op resources hop]
    exact handler_run_plain _ op gs resources ctx hop


theorem Process_run (proc : Processor) (n : Nat)
    (ih : ∀ resources ops ctx c,
      renderContentStream proc n (.ok ops) resources ctx = some (.ok c) →
      Run ctx c (opens (handled n resources ops)) (closes (handled n resources ops)))
    (resources : PdfPageResources) (ops : List ContentStreamOperation) :
    ∀ done ctx c,
      Process proc (handler (renderContentStream proc n)) resources done ops ctx = some (.ok c) →
      Run ctx c (opens (handled (n + 1) resources ops)) (closes (handled (n + 1) resources ops)) := by
  induction ops with
  | nil =>
    intro done ctx c h
    simp only [Process, Option.some.injEq, Outcome.ok.injEq] at h
    subst h
    simpa [handled, opens, closes, countOp] using Run.refl ctx
  | cons op rest ihl =>
    intro done ctx c h
    rw [handled_cons, opens_append, closes_append]
    simp only [Process] at h
    split at h
    · cases h
    · split at h
      · cases h
      · rename_i gs hgs
        split at h
        · rename_i c1 hc1
          exact (handler_run proc n ih op gs resources ctx _ hc1 c1 rfl).trans (ihl _ _ _ h)
        · rename_i hne
          exact absurd h (hne c)

theorem render_run (proc : Processor) (fuel : Nat) :
    ∀ resources ops ctx c,
      renderContentStream proc fuel (.ok ops) resources ctx = some (.ok c) →
      Run ctx c (opens (handled fuel resources ops)) (closes (handled fuel resources ops)) := by
  induction fuel with
  | zero => intro resources ops ctx c h; cases h
  | succ n ih =>
    intro resources ops ctx c h
    exact Process_run proc n ih resources ops [] ctx c h

/-- C1 (as stated, refuted): the stream `/F Do` holds no `q`, `Q`, `BT` or `ET`, and the handler
returns nil on it and on the one operation `q` of the form `F`; the calls issued are `Push`,
`Push`, `Pop`, two `Push` against one `Pop`, and the stack depth ends at 1 from 0. -/
theorem unbalanced_form_leaves_a_state :
    countOp "q" [doOp "F"] = countOp "Q" [doOp "F"] ∧
    countOp "BT" [doOp "F"] = countOp "ET" [doOp "F"] ∧
    renderContentStream (constProcessor (rgbGraphicsState [0, 0, 0])) 2 (.ok [doOp "F"])
        unbalancedForm newRenderContext
      = some (.ok { newRenderContext with
          dc := { NewContext with stack := [NewContext.attrs] },
          calls := [.Push, .Push, .Pop] }) ∧
    pushCount [.Push, .Push, .Pop] = 2 ∧ popCount [.Push, .Push, .Pop] = 1 ∧
    newRenderContext.depth = 0 ∧
    ({ newRenderContext with
        dc := { NewContext with stack := [NewContext.attrs] },
        calls := [.Push, .Push, .Pop] } : renderContext).depth = 1 := by
  refine ⟨by decide, by decide, by rfl, by decide, by decide, by rfl, by rfl⟩

/-- C1 (amended): when a run returns nil, and `q`/`Q` and `BT`/`ET` are balanced among the
operations handled in it (those of the stream together with those of every form stream
interpreted through `Do`), the calls issued hold as many `Push` as `Pop` (the pairs of `Do` on
an image, `Do` on a form and `BI` included) and the stack depth ends where it started. -/
theorem balanced_run_keeps_depth (proc : Processor) (fuel : Nat)
    (resources : PdfPageResources) (ops : List ContentStreamOperation) (ctx c : renderContext)
    (hrun : renderContentStream proc fuel (.ok ops) resources ctx = some (.ok c))
    (hq : countOp "q" (handled fuel resources ops) = countOp "Q" (handled fuel resources ops))
    (hbt : countOp "BT" (handled fuel resources ops)
      = countOp "ET" (handled fuel resources ops)) :
    ∃ cs, c.calls = ctx.calls ++ cs ∧ pushCount cs = popCount cs ∧ c.depth = ctx.depth := by
  obtain ⟨cs, h1, h2, h3⟩ := render_run proc fuel resources ops ctx c hrun
  simp only [opens, closes] at h2 h3
  exact ⟨cs, h1, by omega, by omega⟩

/-- The balance statement at `q /F Do Q` with a form whose stream is `BT ET`. -/
theorem balanced_run_keeps_depth_witness :
    renderContentStream (constProcessor (rgbGraphicsState [0, 0, 0])) 2
        (.ok [plainOp "q", doOp "F", plainOp "Q"]) textForm newRenderContext
      = some (.ok { newRenderContext with
          calls := [.Push, .Push, .Push, .Pop, .Pop, .Pop] }) ∧
    countOp "q" (handled 2 textForm [plainOp "q", doOp "F", plainOp "Q"])
      = countOp "Q" (handled 2 textForm [plainOp "q", doOp "F", plainOp "Q"]) ∧
    countOp "BT" (handled 2 textForm [plainOp "q", doOp "F", plainOp "Q"])
      = countOp "ET" (handled 2 textForm [plainOp "q", doOp "F", plainOp "Q"]) ∧
    ∃ cs, ({ newRenderContext with calls := [.Push, .Push, .Push, .Pop, .Pop, .Pop] }
        : renderContext).calls = newRenderContext.calls ++ cs ∧
      pushCount cs = popCount cs ∧
      ({ newRenderContext with calls := [.Push, .Push, .Push, .Pop, .Pop, .Pop] }
        : renderContext).depth = newRenderContext.depth :=
  ⟨by rfl, by decide, by decide,
    balanced_run_keeps_depth (constProcessor (rgbGraphicsState [0, 0, 0])) 2 textForm
      [plainOp "q", doOp "F", plainOp "Q"] newRenderContext _ (by rfl) (by decide) (by decide)⟩


/-! ## Dispatch on the clipping operators -/

theorem handler_W (rec : ContentStream → PdfPageResources → renderContext → Option Outcome)
    (gs : GraphicsState) (resources : PdfPageResources) (ctx : renderContext)
    (params : List PdfObject) :
    handler rec ⟨"W", params⟩ gs resources ctx =
      some (ctx.issue [.SetFillRule .FillRuleWinding, .ClipPreserve]) := rfl

theorem handler_n (rec : ContentStream → PdfPageResources → renderContext → Option Outcome)
    (gs : GraphicsState) (resources : PdfPageResources) (ctx : renderContext)
    (params : List PdfObject) :
    handler rec ⟨"n", params⟩ gs resources ctx = some (ctx.issue [.ClearPath]) := rfl

/-! ## C11: line width after `cm` -/

/-- C11 (the code at the failing input): along `2 0 0 2 0 0 cm 2 0 0 2 0 0 cm`, started with
line width 1, the processor hands in scaling factors 2 and then 4; the width is 2 after the
first `cm` and 8 after the second, where the factors of the two operand matrices give
1 * 2 * 2 = 4. -/
theorem cm_twice_scales_width_by_accumulated_CTM :
    newRenderContext.dc.attrs.lineWidth = 1 ∧
    (renderContentStream doublingProcessor 1 (.ok [cmOp doubling]) emptyResources
        newRenderContext).map (fun r => r.ctx.dc.attrs.lineWidth) = some 2 ∧
    (renderContentStream doublingProcessor 1 (.ok [cmOp doubling, cmOp doubling]) emptyResources
        newRenderContext).map (fun r => r.ctx.dc.attrs.lineWidth) = some 8 := by
  have hop : ∀ M, (cmOp M).Operand = "cm" := fun _ => rfl
  refine ⟨rfl, ?_, ?_⟩
  all_goals
    simp [renderContentStream, Process, doublingProcessor, rgbGraphicsState, countOp, hop,
      handler_cm, renderContext.issue, Context.apply, Context.ConcatMatrix, Outcome.andThen,
      Outcome.ctx, newRenderContext, NewContext]
  all_goals norm_num

/-! ## C12: the clipping operators -/

/-- C12 (the code at the failing input): on a fresh context `0 0 10 10 re W` already leaves the
square in the clip mask, which was empty; a following `S` is painted under that mask, and `n`
after it only clears the path. -/
theorem W_clips_at_once :
    newRenderContext.dc.mask = [] ∧
    (renderContentStream (constProcessor (rgbGraphicsState [1, 0, 0])) 1 (.ok clipOps)
        emptyResources newRenderContext).map
      (fun r => (r.ctx.calls, r.ctx.dc.mask))
    = some ([.DrawRectangle 0 0 10 (-10), .NewSubPath, .SetFillRule .FillRuleWinding,
          .ClipPreserve], [⟨squarePath, .FillRuleWinding⟩]) ∧
    (renderContentStream (constProcessor (rgbGraphicsState [1, 0, 0])) 1
        (.ok (clipOps ++ [plainOp "S", plainOp "n"])) emptyResources newRenderContext).map
      (fun r => (r.ctx.dc.im, r.ctx.dc.mask))
    = some ([⟨.stroke squarePath ⟨1, 0, 0, 1⟩ 1, [⟨squarePath, .FillRuleWinding⟩]⟩],
        [⟨squarePath, .FillRuleWinding⟩]) := by
  refine ⟨rfl, ?_, ?_⟩ <;>
  simp [renderContentStream, Process, constProcessor, clipOps, plainOp, squarePath, handler_re,
    handler_W, handler_S, handler_n, setColor, rgbGraphicsState, DeviceRGB, renderContext.issue,
    Context.apply, Outcome.andThen, Context.DrawRectangle, Context.NewSubPath, Context.MoveTo,
    Context.LineTo, Context.ClosePath, Context.StrokePreserve, Context.ClearPath,
    Context.ClipPreserve, Context.SetRGBA, newRenderContext, NewContext, Matrix.TransformPoint,
    Matrix.Identity, Outcome.ctx]

/-! ## C13: the scope of a form -/

/-- C13: `Do` on a form whose content stream was read, once `Push` and the `Matrix` part have
gone through, hands the nested interpretation the form's own resource scope when the form has
one and the caller's scope when it has none; when the form has no `BBox` the nested
interpretation is started all the same, on the context as the `Matrix` part left it (no
rectangle, no clip), and the handler returns what that interpretation returns, followed by
`Pop`. -/
theorem Do_form_scope_and_missing_BBox
    (rec : ContentStream → PdfPageResources → renderContext → Option Outcome)
    (gs : GraphicsState) (resources : PdfPageResources) (ctx c1 : renderContext)
    (name : String) (xform : XObjectForm) (formContent : ContentStream)
    (hlook : resources.GetXObjectByName name = some (.form (.ok xform)))
    (hcontent : xform.content = .ok formContent)
    (hmatrix : formMatrix xform (ctx.after .Push ctx.dc.Push) = .ok c1) :
    (∀ own c2, xform.Resources = some own → formBBox xform c1 = .ok c2 →
      handler rec (doOp name) gs resources ctx = (rec formContent own c2).map afterForm) ∧
    (∀ c2, xform.Resources = none → formBBox xform c1 = .ok c2 →
      handler rec (doOp name) gs resources ctx = (rec formContent resources c2).map afterForm) ∧
    (xform.BBox = none →
      handler rec (doOp name) gs resources ctx =
        (rec formContent (match xform.Resources with | none => resources | some r => r)
          c1).map afterForm) := by
  have hpush : ctx.issue [.Push] = .ok (ctx.after .Push ctx.dc.Push) := rfl
  have hbody : ∀ c2, formBBox xform c1 = .ok c2 →
      handler rec (doOp name) gs resources ctx =
        (rec formContent (match xform.Resources with | none => resources | some r => r)
          c2).map afterForm := by
    intro c2 hbbox
    rw [handler_Do, doXObject]
    simp only [hlook, hcontent, hpush, Outcome.andThen, hmatrix, hbbox, Outcome.andThenRun]
    rfl
  refine ⟨?_, ?_, ?_⟩
  · intro own c2 hown hbbox
    rw [hbody c2 hbbox, hown]
  · intro c2 hnone hbbox
    rw [hbody c2 hbbox, hnone]
  · intro hnone
    exact hbody c1 (by simp only [formBBox, hnone])

/-- The scope statement at `/F Do` with the form whose stream is `BT ET`, which has no
resources, no matrix and no bounding box. -/
theorem Do_form_scope_and_missing_BBox_witness :
    textForm.GetXObjectByName "F" = some (.form (.ok textXForm)) ∧
    textXForm.content = .ok (.ok [plainOp "BT", plainOp "ET"]) ∧
    formMatrix textXForm (newRenderContext.after .Push newRenderContext.dc.Push)
      = .ok (newRenderContext.after .Push newRenderContext.dc.Push) ∧
    ((∀ own c2, textXForm.Resources = some own →
        formBBox textXForm (newRenderContext.after .Push newRenderContext.dc.Push) = .ok c2 →
        handler (renderContentStream (constProcessor (rgbGraphicsState [0, 0, 0])) 1) (doOp "F")
            (rgbGraphicsState [0, 0, 0]) textForm newRenderContext =
          (renderContentStream (constProcessor (rgbGraphicsState [0, 0, 0])) 1
            (.ok [plainOp "BT", plainOp "ET"]) own c2).map afterForm) ∧
      (∀ c2, textXForm.Resources = none →
        formBBox textXForm (newRenderContext.after .Push newRenderContext.dc.Push) = .ok c2 →
        handler (renderContentStream (constProcessor (rgbGraphicsState [0, 0, 0])) 1) (doOp "F")
            (rgbGraphicsState [0, 0, 0]) textForm newRenderContext =
          (renderContentStream (constProcessor (rgbGraphicsState [0, 0, 0])) 1
            (.ok [plainOp "BT", plainOp "ET"]) textForm c2).map afterForm) ∧
      (textXForm.BBox = none →
        handler (renderContentStream (constProcessor (rgbGraphicsState [0, 0, 0])) 1) (doOp "F")
            (rgbGraphicsState [0, 0, 0]) textForm newRenderContext =
          (renderContentStream (constProcessor (rgbGraphicsState [0, 0, 0])) 1
            (.ok [plainOp "BT", plainOp "ET"])
            (match textXForm.Resources with | none => textForm | some r => r)
            (newRenderContext.after .Push newRenderContext.dc.Push)).map afterForm)) :=
  ⟨rfl, rfl, rfl,
    Do_form_scope_and_missing_BBox _ _ textForm newRenderContext _ "F" textXForm _ rfl rfl rfl⟩


/-! ## C14: the context an error leaves -/

theorem issue_ne_error (cs : List Call) :
    ∀ (c0 c : renderContext) (e : Err), c0.issue cs ≠ .error e c := by
  induction cs with
  | nil => intro c0 c e h; cases h
  | cons k ks ih =>
    intro c0 c e h
    simp only [renderContext.issue] at h
    split at h
    · exact ih _ _ _ h
    · cases h

theorem ErrKeepsO_some (ctx : renderContext) (r : Outcome) (h : ErrKeeps ctx r) :
    ErrKeepsO ctx (some r) := by
  intro r2 hr
  cases hr
  exact h

theorem ErrKeeps_self (ctx : renderContext) (e : Err) : ErrKeeps ctx (.error e ctx) := by
  intro e2 c h _
  cases h
  rfl

theorem ErrKeeps_ok (ctx c0 : renderContext) : ErrKeeps ctx (.ok c0) := by
  intro e c h
  cases h

theorem ErrKeeps_issue (ctx c0 : renderContext) (cs : List Call) :
    ErrKeeps ctx (c0.issue cs) := by
  intro e c h
  exact absurd h (issue_ne_error cs c0 c e)

theorem ErrKeeps_andThen (ctx : renderContext) (r : Outcome) (k : renderContext → Outcome)
    (h1 : ErrKeeps ctx r) (h2 : ∀ c1, ErrKeeps ctx (k c1)) : ErrKeeps ctx (r.andThen k) := by
  cases r with
  | ok c1 => exact h2 c1
  | error e c1 => exact h1
  | crash c1 => exact h1

theorem ErrKeeps_setColor_self (cs : PdfColorspace) (color : List ℚ) (alpha : ℚ)
    (ctx : renderContext) : ErrKeeps ctx (setColor cs color alpha ctx) := by
  unfold setColor
  split
  · exact ErrKeeps_self _ _
  · exact ErrKeeps_issue _ _ _

theorem ErrKeeps_setColor_lib (cs : PdfColorspace) (color : List ℚ) (alpha : ℚ)
    (ctx c0 : renderContext)
    (hlib : ∀ e, cs.ColorToRGB color = .error e → e ≠ .errRange ∧ e ≠ .errType) :
    ErrKeeps ctx (setColor cs color alpha c0) := by
  unfold setColor
  split
  · rename_i e he
    intro e2 c h hor
    cases h
    rcases hor with h1 | h1
    · exact absurd h1 (hlib _ he).1
    · exact absurd h1 (hlib _ he).2
  · exact ErrKeeps_issue _ _ _

theorem ErrKeeps_loadFont (font : FontResource) (fsize : ℚ) (ctx : renderContext) :
    ErrKeeps ctx (loadFont font fsize ctx) := by
  unfold loadFont
  repeat' split
  all_goals first
    | exact ErrKeeps_self _ _
    | exact ErrKeeps_ok _ _

theorem handler_errKeeps_plain
    (rec : ContentStream → PdfPageResources → renderContext → Option Outcome)
    (op : ContentStreamOperation) (gs : GraphicsState) (resources : PdfPageResources)
    (ctx : renderContext) (hop : op.Operand ≠ "Do")
    (hq1 : op.Operand ≠ "\x27") (hq2 : op.Operand ≠ "\x27\x27")
    (hlib : ∀ e, gs.ColorspaceStroking.ColorToRGB gs.ColorStroking = .error e →
      e ≠ .errRange ∧ e ≠ .errType) :
    ErrKeepsO ctx (handler rec op gs resources ctx) := by
  unfold handler
  split
  all_goals first
    | exact absurd (by assumption) hop
    | exact absurd (by assumption) hq1
    | exact absurd (by assumption) hq2
    | skip
  all_goals try (repeat' split)
  all_goals apply ErrKeepsO_some
  all_goals try (refine ErrKeeps_andThen _ _ _ ?_ (fun c => ?_))
  all_goals try (refine ErrKeeps_andThen _ _ _ ?_ (fun c => ?_))
  all_goals first
    | exact ErrKeeps_self _ _
    | exact ErrKeeps_ok _ _
    | exact ErrKeeps_issue _ _ _
    | exact ErrKeeps_setColor_self _ _ _ _
    | exact ErrKeeps_setColor_lib _ _ _ _ _ hlib
    | exact ErrKeeps_loadFont _ _ _

theorem handler_errKeeps_Do
    (rec : ContentStream → PdfPageResources → renderContext → Option Outcome)
    (op : ContentStreamOperation) (gs : GraphicsState) (resources : PdfPageResources)
    (ctx : renderContext) (hop : op.Operand = "Do") (hform : doForm op resources = none) :
    ErrKeepsO ctx (handler rec op gs resources ctx) := by
  rw [handler_eq_Do _ op gs resources ctx hop]
  by_cases hlen : op.Params.length = 1
  · rw [if_neg (not_not.mpr hlen)]
    unfold doForm at hform
    rw [if_pos ⟨hop, hlen⟩] at hform
    cases hname : GetName (op.Params.getD 0 .null) with
    | none => exact ErrKeepsO_some _ _ (ErrKeeps_self _ _)
    | some name =>
      simp only [hname] at hform ⊢
      unfold doXObject
      cases hlook : resources.GetXObjectByName name with
      | none => exact ErrKeepsO_some _ _ (ErrKeeps_ok _ _)
      | some x =>
        cases x with
        | image decoded =>
          cases decoded with
          | error e => exact ErrKeepsO_some _ _ (ErrKeeps_self _ _)
          | ok goImg => exact ErrKeepsO_some _ _ (ErrKeeps_issue _ _ _)
        | form fetched =>
          cases fetched with
          | error e => exact ErrKeepsO_some _ _ (ErrKeeps_self _ _)
          | ok xform =>
            simp only [hlook] at hform
            simp only []
            cases hcontent : xform.content with
            | error e => exact ErrKeepsO_some _ _ (ErrKeeps_self _ _)
            | ok formContent =>
              simp only [hcontent] at hform
              cases hform
  · rw [if_pos hlen]
    exact ErrKeepsO_some _ _ (ErrKeeps_self _ _)

/-- C14 (as stated, refuted): on a fresh context `'` without operands returns the range-check
error after `MoveTo(0, 10)`: the path has gained a subpath start and the current point has
moved from `(0, 0)` to `(0, 10)`; `/F Do` on a form whose `Matrix` is not an array returns the
type-check error after `Push`: the stack depth has gone from 0 to 1. -/
theorem error_after_a_call :
    (∃ c, handler (fun _ _ _ => none) (plainOp "\x27") (rgbGraphicsState [0, 0, 0])
        emptyResources newRenderContext = some (.error .errRange c) ∧
      c.calls = [.MoveTo 0 10] ∧ c.dc.path = [.start ⟨0, 10⟩] ∧ c.dc.current = ⟨0, 10⟩ ∧
      newRenderContext.dc.path = [] ∧ newRenderContext.dc.current = ⟨0, 0⟩) ∧
    (∃ c, handler (fun _ _ _ => none) (doOp "F") (rgbGraphicsState [0, 0, 0])
        badMatrixScope newRenderContext = some (.error .errType c) ∧
      c.calls = [.Push] ∧ c.depth = 1 ∧ newRenderContext.depth = 0) := by
  constructor
  · refine ⟨newRenderContext.after (.MoveTo 0 10) (NewContext.MoveTo 0 10), rfl, rfl, ?_, ?_,
      rfl, rfl⟩ <;>
    simp [renderContext.after, Context.MoveTo, NewContext, Matrix.TransformPoint,
      Matrix.Identity]
  · exact ⟨newRenderContext.after .Push NewContext.Push, rfl, rfl, rfl, rfl⟩

/-- C14 (amended): for every operator other than `'` and `''` that does not start the
interpretation of a form, when the handler returns the range-check or the type-check error the
render context is the one the operator was given: path, current point, stack depth and all the
rest are unchanged. (Library calls hand back errors of their own, never the two errors of the
handler; for the colour conversion this is a hypothesis.) -/
theorem error_before_any_call
    (rec : ContentStream → PdfPageResources → renderContext → Option Outcome)
    (op : ContentStreamOperation) (gs : GraphicsState) (resources : PdfPageResources)
    (ctx c : renderContext) (e : Err)
    (hq1 : op.Operand ≠ "\x27") (hq2 : op.Operand ≠ "\x27\x27")
    (hform : doForm op resources = none)
    (hlib : ∀ e, gs.ColorspaceStroking.ColorToRGB gs.ColorStroking = .error e →
      e ≠ .errRange ∧ e ≠ .errType)
    (herr : handler rec op gs resources ctx = some (.error e c))
    (he : e = .errRange ∨ e = .errType) :
    c = ctx := by
  by_cases hop : op.Operand = "Do"
  · exact handler_errKeeps_Do rec op gs resources ctx hop hform _ herr e c rfl he
  · exact handler_errKeeps_plain rec op gs resources ctx hop hq1 hq2 hlib _ herr e c rfl he

/-- The statement on errors at `1 m`, one operand where `m` requires two. -/
theorem error_before_any_call_witness :
    (⟨"m", [.integer 1]⟩ : ContentStreamOperation).Operand ≠ "\x27" ∧
    (⟨"m", [.integer 1]⟩ : ContentStreamOperation).Operand ≠ "\x27\x27" ∧
    doForm ⟨"m", [.integer 1]⟩ emptyResources = none ∧
    (∀ e, (rgbGraphicsState [0, 0, 0]).ColorspaceStroking.ColorToRGB
        (rgbGraphicsState [0, 0, 0]).ColorStroking = .error e →
      e ≠ .errRange ∧ e ≠ .errType) ∧
    handler (fun _ _ _ => none) ⟨"m", [.integer 1]⟩ (rgbGraphicsState [0, 0, 0]) emptyResources
      newRenderContext = some (.error .errRange newRenderContext) ∧
    (Err.errRange = .errRange ∨ Err.errRange = .errType) ∧
    newRenderContext = newRenderContext :=
  ⟨by decide, by decide, rfl,
    (fun e h => by simp [rgbGraphicsState, DeviceRGB] at h), rfl, Or.inl rfl,
    error_before_any_call (fun _ _ _ => none) ⟨"m", [.integer 1]⟩ (rgbGraphicsState [0, 0, 0])
      emptyResources newRenderContext newRenderContext .errRange (by decide) (by decide) rfl
      (fun e h => by simp [rgbGraphicsState, DeviceRGB] at h) rfl (Or.inl rfl)⟩

end PdfRender
